import Mathlib

/-!
# TinyPICO helper library: a shallow embedding

The C++ class `TinyPICO` (src/src/TinyPICO.h, src/src/TinyPICO.cpp) is embedded as a
record of its private fields together with one Lean function per member function.

* Machine integers are natural numbers. Every narrowing conversion to `uint8_t` / `byte`
  is an explicit reduction modulo 256 and every `unsigned long` / `uint32_t` computation
  an explicit reduction modulo 2^32 (the ESP32 is an ILP32 target, so `unsigned long` is
  32 bits wide). A parameter or field of type `uint8_t` is a natural number that the
  theorems take to be below 256 (`TinyPICO.WF` for the fields).
* Calls into the platform (pinMode, digitalWrite, digitalRead, delay, the ADC calls) are
  recorded, in program order, in a list of events returned next to the new driver state.
* Values read from the platform (`millis()`, the calibrated ADC reading, the samples of
  `digitalRead`) are arguments of the function that reads them, one per read, in program
  order.
* A user of the driver is a list of calls (`Op`), run one after the other by `Op.run`; the
  levels and modes that the recorded calls leave on the three DotStar lines are followed
  by `Link.step`.
* `lastMeasuredVoltage` is the `float` `(float)mv / 1000.0`; it is a function of the
  32-bit integer `mv` only, and the embedding stores `mv` itself.
-/

/-! ## Platform constants (TinyPICO.h, TinyPICO.cpp and Arduino.h) -/

namespace TinyPICO_h

/-- Pin that gates power to the DotStar (active low). -/
def DOTSTAR_PWR : Nat := 13
/-- Data line of the DotStar. -/
def DOTSTAR_DATA : Nat := 2
/-- Clock line of the DotStar. -/
def DOTSTAR_CLK : Nat := 12
/-- Charge-status line. -/
def BAT_CHARGE : Nat := 34
/-- Battery-voltage sense line. -/
def BAT_VOLTAGE : Nat := 35
/-- Upper resistor of the battery divider. -/
def UPPER_DIVIDER : Nat := 442
/-- Lower resistor of the battery divider. -/
def LOWER_DIVIDER : Nat := 160

/-- Arduino logic level HIGH. -/
abbrev HIGH : Bool := true
/-- Arduino logic level LOW. -/
abbrev LOW : Bool := false

/-- The pin modes the library uses. -/
inductive PinMode where
  | INPUT
  | OUTPUT
  | INPUT_PULLDOWN
  deriving DecidableEq, Repr

/-- One call into the platform layer. -/
inductive Event where
  | pinMode (pin : Nat) (mode : PinMode)
  | digitalWrite (pin : Nat) (level : Bool)
  | delay (ms : Nat)
  | analogRead (pin : Nat)
  | esp_adc_cal_characterize
  | analogSetPinAttenuation (pin : Nat)
  | analogReadMilliVolts (pin : Nat)
  | digitalRead (pin : Nat)
  deriving DecidableEq, Repr

/-- Conversion of an `int` value to `uint8_t` (reduction modulo 256). -/
def toUInt8 (x : Int) : Nat := (x % 256).toNat

/-- Subtraction of two `unsigned long` values (modulo 2^32). -/
def subULong (a b : Nat) : Nat := (((a : Int) - (b : Int)) % 4294967296).toNat

/-- Addition of two `unsigned long` values (modulo 2^32). -/
def addULong (a b : Nat) : Nat := (a + b) % 4294967296

end TinyPICO_h

open TinyPICO_h

/-! ## The driver state -/

/-- The private fields of `class TinyPICO`; `pixel0`, `pixel1`, `pixel2` are the three
bytes `pixel[0]`, `pixel[1]`, `pixel[2]`. -/
structure TinyPICO where
  nextVoltage : Nat
  lastMeasuredVoltage : Nat
  colorRotation : Nat
  nextRotation : Nat
  brightness : Nat
  pixel0 : Nat
  pixel1 : Nat
  pixel2 : Nat
  isInit : Bool
  isToneInit : Bool
  deriving DecidableEq, Repr

namespace TinyPICO

/-- Every field holds a value of its C++ type. -/
def WF (s : TinyPICO) : Prop :=
  s.nextVoltage < 4294967296 ∧ s.lastMeasuredVoltage < 4294967296 ∧
  s.colorRotation < 256 ∧ s.nextRotation < 4294967296 ∧ s.brightness < 256 ∧
  s.pixel0 < 256 ∧ s.pixel1 < 256 ∧ s.pixel2 < 256

instance (s : TinyPICO) : Decidable s.WF := by
  unfold WF; infer_instance

/-- The array read `pixel[i]` for `i` in 0..2. -/
def pixel (s : TinyPICO) (i : Nat) : Nat :=
  match i with
  | 0 => s.pixel0
  | 1 => s.pixel1
  | _ => s.pixel2

/-- `TinyPICO::DotStar_SetPower`: one write to the power line, then the mode of the
data and clock lines. -/
def DotStar_SetPower (state : Bool) : List Event :=
  [ Event.digitalWrite DOTSTAR_PWR (!state),
    Event.pinMode DOTSTAR_DATA (if state then PinMode.OUTPUT else PinMode.INPUT_PULLDOWN),
    Event.pinMode DOTSTAR_CLK (if state then PinMode.OUTPUT else PinMode.INPUT_PULLDOWN) ]

/-- The constructor `TinyPICO::TinyPICO`. `now` is the value `millis()` returns;
`lastMeasuredVoltage` and `isToneInit` are not assigned by the constructor, so the
values they hold afterwards (`v0`, `t0`) are arbitrary. -/
def new (now v0 : Nat) (t0 : Bool) : TinyPICO × List Event :=
  ( { nextVoltage := now
      lastMeasuredVoltage := v0
      colorRotation := 0
      nextRotation := 0
      brightness := 128
      pixel0 := 0
      pixel1 := 0
      pixel2 := 0
      isInit := false
      isToneInit := t0 },
    [ Event.pinMode DOTSTAR_PWR PinMode.OUTPUT,
      Event.pinMode BAT_CHARGE PinMode.INPUT,
      Event.pinMode BAT_VOLTAGE PinMode.INPUT ] ++ DotStar_SetPower false )

/-- `TinyPICO::DotStar_SetBrightness`: `brightness = b + 1` in 8 bits. -/
def DotStar_SetBrightness (s : TinyPICO) (b : Nat) : TinyPICO :=
  { s with brightness := (b + 1) % 256 }

/-- `TinyPICO::Color`: `((uint32_t)r << 16) | ((uint32_t)g << 8) | b`. -/
def Color (r g b : Nat) : Nat :=
  ((r <<< 16) % 4294967296) ||| ((g <<< 8) % 4294967296) ||| b

/-- The loop of `TinyPICO::swspi_out`: `for (uint8_t i = 8; i--; n <<= 1)`; the first
argument is the value of `i` when the loop condition is tested. -/
def swspi_out_loop : Nat → Nat → List Event
  | 0, _ => []
  | i + 1, n =>
    [ Event.digitalWrite DOTSTAR_DATA (if n &&& 0x80 ≠ 0 then HIGH else LOW),
      Event.digitalWrite DOTSTAR_CLK HIGH,
      Event.digitalWrite DOTSTAR_CLK LOW ] ++ swspi_out_loop i ((n <<< 1) % 256)

/-- `TinyPICO::swspi_out`: eight loop iterations, then `delay(1)`. -/
def swspi_out (n : Nat) : List Event :=
  swspi_out_loop 8 n ++ [Event.delay 1]

/-- `TinyPICO::swspi_init`. -/
def swspi_init : List Event :=
  DotStar_SetPower true ++
  [ Event.digitalWrite DOTSTAR_DATA LOW, Event.digitalWrite DOTSTAR_CLK LOW ]

/-- The arguments of the successive `swspi_out` calls of `TinyPICO::DotStar_Show`, each
converted to the parameter type `uint8_t`: four start-frame bytes, the pixel start
byte, the loop over `pixel[0..2]`, the end-frame byte. -/
def DotStar_Show_bytes (s : TinyPICO) : List Nat :=
  let b16 := s.brightness % 65536
  List.replicate 4 0x00 ++ [0xFF] ++
  (List.range 3).map (fun i =>
    if s.brightness > 0 then ((s.pixel i * b16) >>> 8) % 256 else s.pixel i % 256) ++
  [0xFF]

/-- The lazy initialisation at the head of `TinyPICO::DotStar_Show`. -/
def DotStar_Show_init (s : TinyPICO) : TinyPICO × List Event :=
  if !s.isInit then ({ s with isInit := true }, swspi_init ++ [Event.delay 10])
  else (s, [])

/-- `TinyPICO::DotStar_Show`. -/
def DotStar_Show (s : TinyPICO) : TinyPICO × List Event :=
  let i := DotStar_Show_init s
  (i.1, i.2 ++ (DotStar_Show_bytes i.1).flatMap swspi_out)

/-- `TinyPICO::DotStar_Clear`. -/
def DotStar_Clear (s : TinyPICO) : TinyPICO × List Event :=
  DotStar_Show { s with pixel0 := 0, pixel1 := 0, pixel2 := 0 }

/-- `TinyPICO::DotStar_SetPixelColor(uint8_t r, uint8_t g, uint8_t b)`. -/
def DotStar_SetPixelColor (s : TinyPICO) (r g b : Nat) : TinyPICO × List Event :=
  DotStar_Show { s with pixel0 := b, pixel1 := g, pixel2 := r }

/-- `TinyPICO::DotStar_SetPixelColor(uint32_t c)`. -/
def DotStar_SetPixelColor_packed (s : TinyPICO) (c : Nat) : TinyPICO × List Event :=
  DotStar_Show
    { s with pixel0 := c % 256, pixel1 := (c >>> 8) % 256, pixel2 := (c >>> 16) % 256 }

/-- The three arguments `(r, g, b)` that `TinyPICO::DotStar_CycleColor` passes to
`DotStar_SetPixelColor` for a given `byte WheelPos`, each `int` expression converted to
`uint8_t` at the call. -/
def wheelArgs (WheelPos : Nat) : Nat × Nat × Nat :=
  if WheelPos < 85 then
    (toUInt8 (255 - (WheelPos : Int) * 3), toUInt8 0, toUInt8 ((WheelPos : Int) * 3))
  else if WheelPos < 170 then
    let q := toUInt8 ((WheelPos : Int) - 85)
    (toUInt8 0, toUInt8 ((q : Int) * 3), toUInt8 (255 - (q : Int) * 3))
  else
    let q := toUInt8 ((WheelPos : Int) - 170)
    (toUInt8 ((q : Int) * 3), toUInt8 (255 - (q : Int) * 3), toUInt8 0)

/-- `TinyPICO::DotStar_CycleColor(unsigned long wait)`. `now₁` is what the `millis()`
call of the test returns and `now₂` what the `millis()` call of the assignment to
`nextRotation` returns. -/
def DotStar_CycleColor (s : TinyPICO) (wait now₁ now₂ : Nat) : TinyPICO × List Event :=
  if now₁ > addULong s.nextRotation wait then
    let s₁ := { s with nextRotation := now₂ }
    let s₂ := { s₁ with colorRotation := (s₁.colorRotation + 1) % 256 }
    let WheelPos := toUInt8 (255 - (s₂.colorRotation : Int))
    let c := wheelArgs WheelPos
    let p := DotStar_SetPixelColor s₂ c.1 c.2.1 c.2.2
    let q := DotStar_Show p.1
    (q.1, p.2 ++ q.2)
  else (s, [])

/-- `TinyPICO::GetBatteryVoltage` (the branch for Arduino ESP32 core 3.x; the other
branch differs only in the ADC calls that produce the calibrated reading). `now₁` is
what the `millis()` call of the test returns, `now₂` what the `millis()` call of the
assignment returns, and `cal` what `analogReadMilliVolts` returns. The result is the
new state, the platform calls, and the returned voltage in millivolts. -/
def GetBatteryVoltage (s : TinyPICO) (now₁ now₂ cal : Nat) : TinyPICO × List Event × Nat :=
  if subULong s.nextVoltage now₁ > 0 then
    let s₁ := { s with nextVoltage := addULong now₂ 1000 }
    let mv := ((cal * (LOWER_DIVIDER + UPPER_DIVIDER)) % 4294967296) / LOWER_DIVIDER
    let s₂ := { s₁ with lastMeasuredVoltage := mv }
    (s₂,
     [ Event.analogRead BAT_VOLTAGE, Event.esp_adc_cal_characterize,
       Event.analogSetPinAttenuation BAT_VOLTAGE, Event.analogReadMilliVolts BAT_VOLTAGE ],
     s₂.lastMeasuredVoltage)
  else (s, [], s.lastMeasuredVoltage)

/-- The loop of `TinyPICO::IsChargingBattery`: `for (int i = 0; i < 10; i++)`. The first
argument is the number of iterations still to run (`10 - i`), the second is `i`, the
third is `measuredVal`; `read i` is the `int` that the call of `digitalRead` in
iteration `i` returns. The result is the final `measuredVal` and the platform calls. -/
def IsChargingBattery_loop (read : Nat → Int) : Nat → Nat → Int → Int × List Event
  | 0, _, measuredVal => (measuredVal, [])
  | k + 1, i, measuredVal =>
    let v := read i
    let r := IsChargingBattery_loop read k (i + 1) (measuredVal + v)
    (r.1, Event.digitalRead BAT_CHARGE :: r.2)

/-- `TinyPICO::IsChargingBattery`: the returned `bool` and the platform calls. The
function reads and writes no field of the driver. -/
def IsChargingBattery (read : Nat → Int) : Bool × List Event :=
  let r := IsChargingBattery_loop read 10 0 0
  (decide (r.1 = 0), r.2)

end TinyPICO

/-! ## Sequences of calls made by a user of the driver -/

/-- One call of a public DotStar operation, with its arguments and, for
`DotStar_CycleColor`, the two clock readings it obtains. -/
inductive Op where
  | SetPower (state : Bool)
  | SetBrightness (b : Nat)
  | SetPixelColor (r g b : Nat)
  | SetPixelColor_packed (c : Nat)
  | Clear
  | Show
  | CycleColor (wait now₁ now₂ : Nat)
  deriving DecidableEq, Repr

/-- The effect of one call on the driver fields, with the platform calls it makes.
`DotStar_SetPower` and `DotStar_SetBrightness` are given the state they leave. -/
def Op.step (s : TinyPICO) : Op → TinyPICO × List Event
  | Op.SetPower state => (s, TinyPICO.DotStar_SetPower state)
  | Op.SetBrightness b => (TinyPICO.DotStar_SetBrightness s b, [])
  | Op.SetPixelColor r g b => TinyPICO.DotStar_SetPixelColor s r g b
  | Op.SetPixelColor_packed c => TinyPICO.DotStar_SetPixelColor_packed s c
  | Op.Clear => TinyPICO.DotStar_Clear s
  | Op.Show => TinyPICO.DotStar_Show s
  | Op.CycleColor wait now₁ now₂ => TinyPICO.DotStar_CycleColor s wait now₁ now₂

/-- A sequence of calls, one after the other: the final state and all platform calls. -/
def Op.run (s : TinyPICO) : List Op → TinyPICO × List Event
  | [] => (s, [])
  | op :: ops =>
    let a := Op.step s op
    let b := Op.run a.1 ops
    (b.1, a.2 ++ b.2)

/-- The call clocks out a frame: `DotStar_Show`, `DotStar_Clear`, `DotStar_SetPixelColor`
in either form, and a `DotStar_CycleColor` whose clock reading has passed the deadline. -/
def Op.transmits (s : TinyPICO) : Op → Bool
  | Op.SetPower _ => false
  | Op.SetBrightness _ => false
  | Op.SetPixelColor _ _ _ => true
  | Op.SetPixelColor_packed _ => true
  | Op.Clear => true
  | Op.Show => true
  | Op.CycleColor wait now₁ _ => decide (now₁ > addULong s.nextRotation wait)

/-- The call clocks out a frame although the driver is already initialised and the
power is off; `off` tells whether the power is off when the call is made. -/
def Op.transmitsUnpowered (s : TinyPICO) (off : Bool) (op : Op) : Bool :=
  Op.transmits s op && s.isInit && off

/-- Whether the power is off after the call: `DotStar_SetPower(state)` leaves it off
exactly for `state` = false; a call that clocks out a frame leaves it on, unless the
driver was already initialised and the power off, in which case it stays off; any other
call leaves it as it was. -/
def Op.powerOffAfter (s : TinyPICO) (off : Bool) : Op → Bool
  | Op.SetPower state => !state
  | op => if Op.transmits s op then s.isInit && off else off

/-- No call of the sequence clocks out a frame at a moment when the driver is already
initialised and the power is off. -/
def Op.neverTransmitsUnpowered (s : TinyPICO) (off : Bool) : List Op → Bool
  | [] => true
  | op :: ops =>
    !Op.transmitsUnpowered s off op &&
      Op.neverTransmitsUnpowered (Op.step s op).1 (Op.powerOffAfter s off op) ops

/-! ## The lines as the platform calls leave them -/

/-- What the platform calls have last set on the three DotStar lines: the level of the
power-enable line and the modes of the data and clock lines. -/
structure Link where
  pwr : Bool
  dataMode : PinMode
  clkMode : PinMode
  deriving DecidableEq, Repr

/-- The DotStar is powered (power-enable low) and both signal lines are outputs. -/
def Link.powered (l : Link) : Bool :=
  l.pwr == LOW && l.dataMode == PinMode.OUTPUT && l.clkMode == PinMode.OUTPUT

/-- The effect of one platform call on the three lines. -/
def Link.step (l : Link) : Event → Link
  | Event.digitalWrite pin level => if pin = DOTSTAR_PWR then { l with pwr := level } else l
  | Event.pinMode pin mode =>
    if pin = DOTSTAR_DATA then { l with dataMode := mode }
    else if pin = DOTSTAR_CLK then { l with clkMode := mode }
    else l
  | _ => l

/-- The lines after a list of platform calls. -/
def Link.after (l : Link) (es : List Event) : Link := es.foldl Link.step l

/-- A write to the data line or to the clock line. -/
def isSignalWrite : Event → Bool
  | Event.digitalWrite pin _ => pin == DOTSTAR_DATA || pin == DOTSTAR_CLK
  | _ => false

/-- Every write to the data or clock line in the list happens while the DotStar is
powered and both lines are outputs, starting from the lines `l`. -/
def poweredWhileClocking (l : Link) : List Event → Bool
  | [] => true
  | e :: es => (!isSignalWrite e || l.powered) && poweredWhileClocking (l.step e) es

/-- The values of the data line at the rising edges of the clock line, in order; `d`
and `c` are the current levels of the data and the clock line. -/
def dataAtRisingEdges (d c : Bool) : List Event → List Bool
  | [] => []
  | Event.digitalWrite pin level :: es =>
    if pin = DOTSTAR_DATA then dataAtRisingEdges level c es
    else if pin = DOTSTAR_CLK then
      if level && !c then d :: dataAtRisingEdges d level es
      else dataAtRisingEdges d level es
    else dataAtRisingEdges d c es
  | _ :: es => dataAtRisingEdges d c es

/-- The number whose binary digits, most significant first, are the given bits. -/
def bitsToNat (bs : List Bool) : Nat := bs.foldl (fun acc b => 2 * acc + b.toNat) 0

/-! ## Definitions that follow the specification's wording -/

/-- The brightness scaling of one colour byte as the specification words it: with a
nonzero stored setting `s` the byte is `(x * s) >> 8`, with the bypass value 0 it is
`x` itself. -/
def scaleSpec (s x : Nat) : Nat :=
  if s ≠ 0 then (x * s) >>> 8 else x

/-- The frame as the specification words it, for a stored brightness `s` and a colour
(r, g, b): four zero bytes, one 0xFF byte, the scaled blue, green and red bytes, and
one trailing 0xFF byte. -/
def frameSpec (s r g b : Nat) : List Nat :=
  [0x00, 0x00, 0x00, 0x00, 0xFF, scaleSpec s b, scaleSpec s g, scaleSpec s r, 0xFF]

/-- The three-segment hue wheel as the specification words it, over the integers. -/
def wheelSpec (pos : Int) : Int × Int × Int :=
  if pos < 85 then (255 - pos * 3, 0, pos * 3)
  else if pos < 170 then (0, (pos - 85) * 3, 255 - (pos - 85) * 3)
  else ((pos - 170) * 3, 255 - (pos - 170) * 3, 0)

/-- Distance between two byte values. -/
def byteDist (a b : Nat) : Nat := (a - b) + (b - a)

/-! ## Auxiliary lemmas -/

open TinyPICO

theorem toUInt8_of_byte (x : Int) (h0 : 0 ≤ x) (h1 : x < 256) : toUInt8 x = x.toNat := by
  unfold toUInt8
  omega

theorem addULong_of_lt (a b : Nat) (h : a + b < 4294967296) : addULong a b = a + b := by
  unfold addULong
  exact Nat.mod_eq_of_lt h

theorem Show_bytes_init (s : TinyPICO) :
    DotStar_Show_bytes (DotStar_Show_init s).1 = DotStar_Show_bytes s := by
  unfold DotStar_Show_init
  cases h : s.isInit <;> simp [DotStar_Show_bytes, TinyPICO.pixel]

theorem Show_trace (s : TinyPICO) :
    (DotStar_Show s).2 = (DotStar_Show_init s).2 ++ (DotStar_Show_bytes s).flatMap swspi_out := by
  simp only [DotStar_Show, Show_bytes_init]

theorem scale_byte (x s : Nat) (hx : x < 256) (hs : s < 256) :
    ((x * (s % 65536)) >>> 8) % 256 = (x * s) >>> 8 := by
  have h1 : s % 65536 = s := Nat.mod_eq_of_lt (by omega)
  have h2 : x * s ≤ 255 * 255 := Nat.mul_le_mul (by omega) (by omega)
  rw [h1, Nat.shiftRight_eq_div_pow]
  omega

theorem Show_bytes_eq (s : TinyPICO) (h : s.WF) :
    DotStar_Show_bytes s =
      [0x00, 0x00, 0x00, 0x00, 0xFF, scaleSpec s.brightness s.pixel0,
        scaleSpec s.brightness s.pixel1, scaleSpec s.brightness s.pixel2, 0xFF] := by
  obtain ⟨-, -, -, -, hb, h0, h1, h2⟩ := h
  by_cases hz : s.brightness = 0
  · simp [DotStar_Show_bytes, scaleSpec, TinyPICO.pixel, List.range, List.range.loop, hz,
      Nat.mod_eq_of_lt h0, Nat.mod_eq_of_lt h1, Nat.mod_eq_of_lt h2]
  · have hp : s.brightness > 0 := Nat.pos_of_ne_zero hz
    simp [DotStar_Show_bytes, scaleSpec, TinyPICO.pixel, List.range, List.range.loop, hz, hp,
      scale_byte _ _ h0 hb, scale_byte _ _ h1 hb, scale_byte _ _ h2 hb]

theorem Color_eq_sum (r g b : Nat) (hr : r < 256) (hg : g < 256) (hb : b < 256) :
    Color r g b = r * 65536 + g * 256 + b := by
  have e1 : r <<< 16 % 4294967296 = 2 ^ 16 * r := by
    rw [Nat.shiftLeft_eq]; omega
  have e2 : g <<< 8 % 4294967296 = g * 256 := by
    rw [Nat.shiftLeft_eq]; omega
  have e3 : 2 ^ 16 * r ||| g * 256 = 2 ^ 8 * (256 * r + g) := by
    rw [← Nat.mul_add_lt_is_or (by omega) r]; omega
  unfold Color
  rw [e1, e2, e3, ← Nat.mul_add_lt_is_or (by omega) (256 * r + g)]
  omega

/-! ## The frame sent by `DotStar_Show` -/

/-- C1: for every driver state whose fields hold values of their types, `DotStar_Show`
hands exactly nine bytes to `swspi_out`, in the order 0x00, 0x00, 0x00, 0x00, 0xFF,
f(blue), f(green), f(red), 0xFF with f(x) = (x * s) >> 8 for a stored brightness s ≠ 0
and f(x) = x for s = 0; its platform calls are the lazy initialisation followed by the
`swspi_out` calls for these bytes. On a freshly constructed driver,
`DotStar_SetBrightness(128)` then `DotStar_SetPixelColor(255,0,0)` sends the frame
00 00 00 00 FF 00 00 80 FF. -/
theorem DotStar_Show_frame (s : TinyPICO) (h : s.WF) :
    DotStar_Show_bytes s =
        [0x00, 0x00, 0x00, 0x00, 0xFF, scaleSpec s.brightness s.pixel0,
          scaleSpec s.brightness s.pixel1, scaleSpec s.brightness s.pixel2, 0xFF] ∧
      (DotStar_Show s).2 =
        (DotStar_Show_init s).2 ++
          List.flatMap
            [0x00, 0x00, 0x00, 0x00, 0xFF, scaleSpec s.brightness s.pixel0,
              scaleSpec s.brightness s.pixel1, scaleSpec s.brightness s.pixel2, 0xFF] swspi_out ∧
      ∀ (now v0 : Nat) (t0 : Bool),
        (DotStar_SetPixelColor (DotStar_SetBrightness (TinyPICO.new now v0 t0).1 128)
            255 0 0).2 =
          swspi_init ++ [Event.delay 10] ++
            List.flatMap [0x00, 0x00, 0x00, 0x00, 0xFF, 0x00, 0x00, 0x80, 0xFF] swspi_out := by
  refine ⟨Show_bytes_eq s h, ?_, ?_⟩
  · rw [Show_trace, Show_bytes_eq s h]
  · intro now v0 t0
    have hb : DotStar_Show_bytes
        { DotStar_SetBrightness (TinyPICO.new now v0 t0).1 128 with
          pixel0 := 0, pixel1 := 0, pixel2 := 255 } =
        [0x00, 0x00, 0x00, 0x00, 0xFF, 0x00, 0x00, 0x80, 0xFF] := by
      simp [DotStar_Show_bytes, TinyPICO.new, DotStar_SetBrightness, TinyPICO.pixel]
      decide
    have hi : (DotStar_Show_init
        { DotStar_SetBrightness (TinyPICO.new now v0 t0).1 128 with
          pixel0 := 0, pixel1 := 0, pixel2 := 255 }).2 = swspi_init ++ [Event.delay 10] := rfl
    rw [DotStar_SetPixelColor, Show_trace, hb, hi]

/-- C1, at a concrete state: blue 10, green 20, red 30 at stored brightness 129. -/
theorem DotStar_Show_frame_witness :
    DotStar_Show_bytes
        { nextVoltage := 0, lastMeasuredVoltage := 0, colorRotation := 0, nextRotation := 0,
          brightness := 129, pixel0 := 10, pixel1 := 20, pixel2 := 30, isInit := true,
          isToneInit := false } =
      [0, 0, 0, 0, 255, 5, 10, 15, 255] :=
  (DotStar_Show_frame
    { nextVoltage := 0, lastMeasuredVoltage := 0, colorRotation := 0, nextRotation := 0,
      brightness := 129, pixel0 := 10, pixel1 := 20, pixel2 := 30, isInit := true,
      isToneInit := false } (by decide)).1

/-! ## Brightness -/

/-- C2: for every level b in 0..255, after `DotStar_SetBrightness(b)` the stored
brightness is (b + 1) mod 256, and it is 0 if and only if b = 255. -/
theorem DotStar_SetBrightness_stored (s : TinyPICO) (b : Nat) (hb : b < 256) :
    (DotStar_SetBrightness s b).brightness = (b + 1) % 256 ∧
      ((DotStar_SetBrightness s b).brightness = 0 ↔ b = 255) := by
  refine ⟨rfl, ?_⟩
  show (b + 1) % 256 = 0 ↔ b = 255
  omega

/-- C2, at level 255 on a fresh driver. -/
theorem DotStar_SetBrightness_stored_witness :
    (DotStar_SetBrightness (TinyPICO.new 0 0 false).1 255).brightness = (255 + 1) % 256 ∧
      ((DotStar_SetBrightness (TinyPICO.new 0 0 false).1 255).brightness = 0 ↔ 255 = 255) :=
  DotStar_SetBrightness_stored (TinyPICO.new 0 0 false).1 255 (by decide)

/-- C3: for every stored pixel, after `DotStar_SetBrightness(255)` the three colour
bytes `DotStar_Show` sends are the raw channel values (blue, green, red), and after
`DotStar_SetBrightness(0)` the three colour bytes are all 0. -/
theorem DotStar_Show_brightness_bounds (s : TinyPICO) (h : s.WF) :
    DotStar_Show_bytes (DotStar_SetBrightness s 255) =
        [0x00, 0x00, 0x00, 0x00, 0xFF, s.pixel0, s.pixel1, s.pixel2, 0xFF] ∧
      (DotStar_Show (DotStar_SetBrightness s 255)).2 =
        (DotStar_Show_init s).2 ++
          List.flatMap
            [0x00, 0x00, 0x00, 0x00, 0xFF, s.pixel0, s.pixel1, s.pixel2, 0xFF] swspi_out ∧
      DotStar_Show_bytes (DotStar_SetBrightness s 0) =
        [0x00, 0x00, 0x00, 0x00, 0xFF, 0, 0, 0, 0xFF] ∧
      (DotStar_Show (DotStar_SetBrightness s 0)).2 =
        (DotStar_Show_init s).2 ++
          List.flatMap [0x00, 0x00, 0x00, 0x00, 0xFF, 0, 0, 0, 0xFF] swspi_out := by
  obtain ⟨hv, hl, hc, hn, hb, h0, h1, h2⟩ := h
  have w255 : (DotStar_SetBrightness s 255).WF :=
    ⟨hv, hl, hc, hn, Nat.mod_lt _ (by decide), h0, h1, h2⟩
  have w0 : (DotStar_SetBrightness s 0).WF :=
    ⟨hv, hl, hc, hn, Nat.mod_lt _ (by decide), h0, h1, h2⟩
  have i255 : (DotStar_Show_init (DotStar_SetBrightness s 255)).2 = (DotStar_Show_init s).2 := by
    unfold DotStar_Show_init DotStar_SetBrightness
    cases s.isInit <;> rfl
  have i0 : (DotStar_Show_init (DotStar_SetBrightness s 0)).2 = (DotStar_Show_init s).2 := by
    unfold DotStar_Show_init DotStar_SetBrightness
    cases s.isInit <;> rfl
  have b255 : DotStar_Show_bytes (DotStar_SetBrightness s 255) =
      [0x00, 0x00, 0x00, 0x00, 0xFF, s.pixel0, s.pixel1, s.pixel2, 0xFF] := by
    rw [Show_bytes_eq _ w255]
    simp [DotStar_SetBrightness, scaleSpec]
  have z : ∀ x, x < 256 → scaleSpec 1 x = 0 := by
    intro x hx
    simp only [scaleSpec, Nat.shiftRight_eq_div_pow, ne_eq, one_ne_zero, not_false_eq_true,
      if_true, Nat.mul_one]
    omega
  have b0 : DotStar_Show_bytes (DotStar_SetBrightness s 0) =
      [0x00, 0x00, 0x00, 0x00, 0xFF, 0, 0, 0, 0xFF] := by
    rw [Show_bytes_eq _ w0]
    simp [DotStar_SetBrightness, z _ h0, z _ h1, z _ h2]
  exact ⟨b255, by rw [Show_trace, b255, i255], b0, by rw [Show_trace, b0, i0]⟩

/-- C3, at the stored pixel blue 1, green 2, red 255. -/
theorem DotStar_Show_brightness_bounds_witness :
    DotStar_Show_bytes (DotStar_SetBrightness
        { nextVoltage := 0, lastMeasuredVoltage := 0, colorRotation := 0, nextRotation := 0,
          brightness := 128, pixel0 := 1, pixel1 := 2, pixel2 := 255, isInit := true,
          isToneInit := false } 0) =
      [0, 0, 0, 0, 255, 0, 0, 0, 255] :=
  (DotStar_Show_brightness_bounds
    { nextVoltage := 0, lastMeasuredVoltage := 0, colorRotation := 0, nextRotation := 0,
      brightness := 128, pixel0 := 1, pixel1 := 2, pixel2 := 255, isInit := true,
      isToneInit := false } (by decide)).2.2.1

/-! ## Packed colours -/

/-- C4: for all 8-bit r, g, b and every prior driver state,
`DotStar_SetPixelColor(Color(r,g,b))` (packed overload) stores the channels (r, g, b)
and leaves the same driver state and the same platform calls, hence the same
transmitted frame, as `DotStar_SetPixelColor(r,g,b)` from the same prior state. -/
theorem DotStar_SetPixelColor_packed_Color (s : TinyPICO) (r g b : Nat)
    (hr : r < 256) (hg : g < 256) (hb : b < 256) :
    DotStar_SetPixelColor_packed s (Color r g b) = DotStar_SetPixelColor s r g b ∧
      (DotStar_SetPixelColor_packed s (Color r g b)).1.pixel2 = r ∧
      (DotStar_SetPixelColor_packed s (Color r g b)).1.pixel1 = g ∧
      (DotStar_SetPixelColor_packed s (Color r g b)).1.pixel0 = b ∧
      DotStar_Show_bytes (DotStar_SetPixelColor_packed s (Color r g b)).1 =
        DotStar_Show_bytes (DotStar_SetPixelColor s r g b).1 := by
  have e0 : Color r g b % 256 = b := by
    rw [Color_eq_sum r g b hr hg hb]; omega
  have e1 : (Color r g b >>> 8) % 256 = g := by
    rw [Color_eq_sum r g b hr hg hb, Nat.shiftRight_eq_div_pow]; omega
  have e2 : (Color r g b >>> 16) % 256 = r := by
    rw [Color_eq_sum r g b hr hg hb, Nat.shiftRight_eq_div_pow]; omega
  have e : DotStar_SetPixelColor_packed s (Color r g b) = DotStar_SetPixelColor s r g b := by
    unfold DotStar_SetPixelColor_packed DotStar_SetPixelColor
    rw [e0, e1, e2]
  have hp : ∀ t : TinyPICO, (DotStar_Show t).1.pixel0 = t.pixel0 ∧
      (DotStar_Show t).1.pixel1 = t.pixel1 ∧ (DotStar_Show t).1.pixel2 = t.pixel2 := by
    intro t
    unfold DotStar_Show DotStar_Show_init
    cases t.isInit <;> exact ⟨rfl, rfl, rfl⟩
  refine ⟨e, ?_, ?_, ?_, by rw [e]⟩
  · rw [e]; exact (hp _).2.2
  · rw [e]; exact (hp _).2.1
  · rw [e]; exact (hp _).1

/-- C4, at r = 1, g = 2, b = 3 on a fresh driver. -/
theorem DotStar_SetPixelColor_packed_Color_witness :
    DotStar_SetPixelColor_packed (TinyPICO.new 0 0 false).1 (Color 1 2 3) =
      DotStar_SetPixelColor (TinyPICO.new 0 0 false).1 1 2 3 :=
  (DotStar_SetPixelColor_packed_Color (TinyPICO.new 0 0 false).1 1 2 3
    (by decide) (by decide) (by decide)).1

/-- C5: for all 8-bit r, g, b, `Color(r,g,b)` is (r << 16) | (g << 8) | b, which is
r*65536 + g*256 + b, a value below 2^24; bits 16-23, 8-15 and 0-7 of it are r, g and
b; and `Color` is injective on 8-bit triples. -/
theorem Color_pack_unpack (r g b : Nat) (hr : r < 256) (hg : g < 256) (hb : b < 256) :
    Color r g b = (r <<< 16) ||| (g <<< 8) ||| b ∧
      Color r g b = r * 65536 + g * 256 + b ∧
      Color r g b < 2 ^ 24 ∧
      (Color r g b >>> 16) % 256 = r ∧
      (Color r g b >>> 8) % 256 = g ∧
      Color r g b % 256 = b ∧
      ∀ r' g' b' : Nat, r' < 256 → g' < 256 → b' < 256 →
        Color r' g' b' = Color r g b → r' = r ∧ g' = g ∧ b' = b := by
  have hs := Color_eq_sum r g b hr hg hb
  have m1 : r <<< 16 % 4294967296 = r <<< 16 := by
    rw [Nat.shiftLeft_eq]; omega
  have m2 : g <<< 8 % 4294967296 = g <<< 8 := by
    rw [Nat.shiftLeft_eq]; omega
  refine ⟨?_, hs, ?_, ?_, ?_, ?_, ?_⟩
  · unfold Color; rw [m1, m2]
  · rw [hs]; omega
  · rw [hs, Nat.shiftRight_eq_div_pow]; omega
  · rw [hs, Nat.shiftRight_eq_div_pow]; omega
  · rw [hs]; omega
  · intro r' g' b' hr' hg' hb' hc
    rw [hs, Color_eq_sum r' g' b' hr' hg' hb'] at hc
    omega

/-- C5, at r = 255, g = 1, b = 2: the packed value is 0xFF0102. -/
theorem Color_pack_unpack_witness : Color 255 1 2 = 255 * 65536 + 1 * 256 + 2 :=
  (Color_pack_unpack 255 1 2 (by decide) (by decide) (by decide)).2.1

/-! ## The colour wheel of `DotStar_CycleColor` -/

theorem Show_state (t : TinyPICO) : (DotStar_Show t).1 = { t with isInit := true } := by
  unfold DotStar_Show DotStar_Show_init
  cases h : t.isInit
  · rfl
  · cases t; simp_all

theorem wheelArgs_nat (pos : Nat) (h : pos < 256) :
    wheelArgs pos =
      if pos < 85 then (255 - pos * 3, 0, pos * 3)
      else if pos < 170 then (0, (pos - 85) * 3, 255 - (pos - 85) * 3)
      else ((pos - 170) * 3, 255 - (pos - 170) * 3, 0) := by
  unfold wheelArgs toUInt8
  split_ifs <;> simp only [Prod.mk.injEq] <;> omega

theorem wheelPos_nat (phase : Nat) (h : phase < 256) :
    toUInt8 (255 - (phase : Int)) = 255 - phase := by
  unfold toUInt8
  omega

theorem CycleColor_state (s : TinyPICO) (wait now₁ now₂ : Nat)
    (he : now₁ > addULong s.nextRotation wait) :
    (DotStar_CycleColor s wait now₁ now₂).1 =
      { s with
        nextRotation := now₂
        colorRotation := (s.colorRotation + 1) % 256
        pixel0 := (wheelArgs (255 - (s.colorRotation + 1) % 256)).2.2
        pixel1 := (wheelArgs (255 - (s.colorRotation + 1) % 256)).2.1
        pixel2 := (wheelArgs (255 - (s.colorRotation + 1) % 256)).1
        isInit := true } := by
  have hp := wheelPos_nat ((s.colorRotation + 1) % 256) (Nat.mod_lt _ (by decide))
  unfold DotStar_CycleColor
  rw [if_pos he]
  simp only [DotStar_SetPixelColor, Show_state, hp]

theorem wheelArgs_spec (pos : Nat) (h : pos < 256) :
    (((wheelArgs pos).1 : Int), ((wheelArgs pos).2.1 : Int), ((wheelArgs pos).2.2 : Int)) =
      wheelSpec pos := by
  rw [wheelArgs_nat pos h]
  unfold wheelSpec
  split_ifs <;> simp only [Prod.mk.injEq] <;> omega

theorem wheelSpec_range (pos : Int) (h0 : 0 ≤ pos) (h : pos < 256) :
    (0 ≤ (wheelSpec pos).1 ∧ (wheelSpec pos).1 ≤ 255) ∧
      (0 ≤ (wheelSpec pos).2.1 ∧ (wheelSpec pos).2.1 ≤ 255) ∧
      (0 ≤ (wheelSpec pos).2.2 ∧ (wheelSpec pos).2.2 ≤ 255) := by
  unfold wheelSpec
  split_ifs <;> simp only <;> omega

/-- C6: for every stored phase c (in 0..255, as the field is a byte), an eligible `DotStar_CycleColor` call stores
as (red, green, blue) the three-segment mapping applied to
pos = 255 - ((c + 1) mod 256), computed over the integers: (255 - 3*pos, 0, 3*pos) for
pos < 85, (0, 3*q, 255 - 3*q) with q = pos - 85 for 85 ≤ pos < 170, and
(3*q, 255 - 3*q, 0) with q = pos - 170 for pos ≥ 170; every channel expression lies
in 0..255, so the conversion to 8 bits loses nothing. New phase 255 gives (255,0,0),
new phase 85 gives (0,255,0), new phase 170 gives (0,0,255). -/
theorem DotStar_CycleColor_wheel (s : TinyPICO) (wait now₁ now₂ : Nat)
    (he : now₁ > addULong s.nextRotation wait) :
    ((((DotStar_CycleColor s wait now₁ now₂).1.pixel2 : Nat) : Int),
        (((DotStar_CycleColor s wait now₁ now₂).1.pixel1 : Nat) : Int),
        (((DotStar_CycleColor s wait now₁ now₂).1.pixel0 : Nat) : Int)) =
        wheelSpec (255 - (((s.colorRotation + 1) % 256 : Nat) : Int)) ∧
      ((0 ≤ (wheelSpec (255 - (((s.colorRotation + 1) % 256 : Nat) : Int))).1 ∧
          (wheelSpec (255 - (((s.colorRotation + 1) % 256 : Nat) : Int))).1 ≤ 255) ∧
        (0 ≤ (wheelSpec (255 - (((s.colorRotation + 1) % 256 : Nat) : Int))).2.1 ∧
          (wheelSpec (255 - (((s.colorRotation + 1) % 256 : Nat) : Int))).2.1 ≤ 255) ∧
        (0 ≤ (wheelSpec (255 - (((s.colorRotation + 1) % 256 : Nat) : Int))).2.2 ∧
          (wheelSpec (255 - (((s.colorRotation + 1) % 256 : Nat) : Int))).2.2 ≤ 255)) ∧
      ((s.colorRotation + 1) % 256 = 255 →
        ((DotStar_CycleColor s wait now₁ now₂).1.pixel2,
          (DotStar_CycleColor s wait now₁ now₂).1.pixel1,
          (DotStar_CycleColor s wait now₁ now₂).1.pixel0) = (255, 0, 0)) ∧
      ((s.colorRotation + 1) % 256 = 85 →
        ((DotStar_CycleColor s wait now₁ now₂).1.pixel2,
          (DotStar_CycleColor s wait now₁ now₂).1.pixel1,
          (DotStar_CycleColor s wait now₁ now₂).1.pixel0) = (0, 255, 0)) ∧
      ((s.colorRotation + 1) % 256 = 170 →
        ((DotStar_CycleColor s wait now₁ now₂).1.pixel2,
          (DotStar_CycleColor s wait now₁ now₂).1.pixel1,
          (DotStar_CycleColor s wait now₁ now₂).1.pixel0) = (0, 0, 255)) := by
  have hlt : (s.colorRotation + 1) % 256 < 256 := Nat.mod_lt _ (by decide)
  have hcast : (255 : Int) - (((s.colorRotation + 1) % 256 : Nat) : Int) =
      ((255 - (s.colorRotation + 1) % 256 : Nat) : Int) := by omega
  rw [CycleColor_state s wait now₁ now₂ he]
  refine ⟨?_, ?_, ?_, ?_, ?_⟩
  · rw [hcast]
    exact wheelArgs_spec _ (by omega)
  · exact wheelSpec_range _ (by omega) (by omega)
  · intro h
    simp only [h]
    decide
  · intro h
    simp only [h]
    decide
  · intro h
    simp only [h]
    decide

/-- C6, on a fresh driver (stored phase 0, new phase 1, pos = 254): the stored colour
is (252, 3, 0). -/
theorem DotStar_CycleColor_wheel_witness :
    ((((DotStar_CycleColor (TinyPICO.new 0 0 false).1 0 1 1).1.pixel2 : Nat) : Int),
        (((DotStar_CycleColor (TinyPICO.new 0 0 false).1 0 1 1).1.pixel1 : Nat) : Int),
        (((DotStar_CycleColor (TinyPICO.new 0 0 false).1 0 1 1).1.pixel0 : Nat) : Int)) =
      wheelSpec (255 - ((((TinyPICO.new 0 0 false).1.colorRotation + 1) % 256 : Nat) : Int)) :=
  (DotStar_CycleColor_wheel (TinyPICO.new 0 0 false).1 0 1 1 (by decide)).1

theorem wheelArgs_step (p : Nat) (hp : p < 256) :
    byteDist (wheelArgs (255 - (p + 1) % 256)).1 (wheelArgs (255 - p)).1 ≤ 3 ∧
      byteDist (wheelArgs (255 - (p + 1) % 256)).2.1 (wheelArgs (255 - p)).2.1 ≤ 3 ∧
      byteDist (wheelArgs (255 - (p + 1) % 256)).2.2 (wheelArgs (255 - p)).2.2 ≤ 3 := by
  rw [wheelArgs_nat _ (by omega), wheelArgs_nat _ (by omega)]
  unfold byteDist
  split_ifs <;> simp only <;> omega

/-- C7: the colour wheel is continuous over the full 256-phase cycle. For every phase
p in 0..255, if one eligible `DotStar_CycleColor` call produces the colour of phase p
and another produces the colour of phase (p + 1) mod 256, each of the three stored
channels differs between the two by at most 3; this covers the segment boundaries and
the wrap from phase 255 to phase 0, and two consecutive eligible calls in particular. -/
theorem DotStar_CycleColor_continuous (s t : TinyPICO) (w₁ a₁ a₂ w₂ b₁ b₂ p : Nat)
    (hs : a₁ > addULong s.nextRotation w₁) (ht : b₁ > addULong t.nextRotation w₂)
    (hp : (DotStar_CycleColor s w₁ a₁ a₂).1.colorRotation = p)
    (hq : (DotStar_CycleColor t w₂ b₁ b₂).1.colorRotation = (p + 1) % 256) :
    byteDist (DotStar_CycleColor t w₂ b₁ b₂).1.pixel2
        (DotStar_CycleColor s w₁ a₁ a₂).1.pixel2 ≤ 3 ∧
      byteDist (DotStar_CycleColor t w₂ b₁ b₂).1.pixel1
        (DotStar_CycleColor s w₁ a₁ a₂).1.pixel1 ≤ 3 ∧
      byteDist (DotStar_CycleColor t w₂ b₁ b₂).1.pixel0
        (DotStar_CycleColor s w₁ a₁ a₂).1.pixel0 ≤ 3 := by
  rw [CycleColor_state s w₁ a₁ a₂ hs] at hp ⊢
  rw [CycleColor_state t w₂ b₁ b₂ ht] at hq ⊢
  simp only at hp hq ⊢
  have hlt : p < 256 := by
    rw [← hp]; exact Nat.mod_lt _ (by decide)
  rw [hp, hq]
  exact wheelArgs_step p hlt

/-- C7, across the wrap: a driver at stored phase 254 makes two consecutive eligible
calls, producing the colours of phase 255 and of phase 0. -/
theorem DotStar_CycleColor_continuous_witness :
    byteDist
        (DotStar_CycleColor
          (DotStar_CycleColor
            { nextVoltage := 0, lastMeasuredVoltage := 0, colorRotation := 254,
              nextRotation := 0, brightness := 128, pixel0 := 0, pixel1 := 0, pixel2 := 0,
              isInit := true, isToneInit := false } 0 1 1).1 0 2 2).1.pixel2
        (DotStar_CycleColor
          { nextVoltage := 0, lastMeasuredVoltage := 0, colorRotation := 254,
            nextRotation := 0, brightness := 128, pixel0 := 0, pixel1 := 0, pixel2 := 0,
            isInit := true, isToneInit := false } 0 1 1).1.pixel2 ≤ 3 :=
  (DotStar_CycleColor_continuous
    { nextVoltage := 0, lastMeasuredVoltage := 0, colorRotation := 254,
      nextRotation := 0, brightness := 128, pixel0 := 0, pixel1 := 0, pixel2 := 0,
      isInit := true, isToneInit := false }
    (DotStar_CycleColor
      { nextVoltage := 0, lastMeasuredVoltage := 0, colorRotation := 254,
        nextRotation := 0, brightness := 128, pixel0 := 0, pixel1 := 0, pixel2 := 0,
        isInit := true, isToneInit := false } 0 1 1).1
    0 1 1 0 2 2 255 (by decide) (by decide) (by decide) (by decide)).1

/-- C8, as stated, fails: at pos = 84, the last position of the first segment, the
wheel colour is (r, g, b) = (3, 0, 252), so g is 0 and not 255, and b is 252 and not
0; a driver at stored phase 170 (new phase 171, pos = 84) stores exactly that colour. -/
theorem wheel_before_boundary_counterexample :
    wheelArgs 84 = (3, 0, 252) ∧
      ¬ ((wheelArgs 84).2.1 = 255 ∧ (wheelArgs 84).2.2 = 0) ∧
      (DotStar_CycleColor
        { nextVoltage := 0, lastMeasuredVoltage := 0, colorRotation := 170,
          nextRotation := 0, brightness := 128, pixel0 := 0, pixel1 := 0, pixel2 := 0,
          isInit := true, isToneInit := false } 0 1 1).1.pixel1 = 0 ∧
      (DotStar_CycleColor
        { nextVoltage := 0, lastMeasuredVoltage := 0, colorRotation := 170,
          nextRotation := 0, brightness := 128, pixel0 := 0, pixel1 := 0, pixel2 := 0,
          isInit := true, isToneInit := false } 0 1 1).1.pixel0 = 252 := by
  decide

/-- C8, amended: at the pos = 85 boundary of the colour wheel, the colour just before
the boundary (pos = 84, the last position of the first segment) is
(r, g, b) = (3, 0, 252), that is g = 0 and b = 252; at pos = 85 the colour is
(0, 0, 255), and for every pos with 85 ≤ pos < 170 the colour is taken from the second
segment, (0, 3*q, 255 - 3*q) with q = pos - 85. -/
theorem wheel_boundary_85 (pos : Nat) (h₁ : 85 ≤ pos) (h₂ : pos < 170) :
    wheelArgs 84 = (3, 0, 252) ∧
      wheelArgs 85 = (0, 0, 255) ∧
      wheelArgs pos = (0, (pos - 85) * 3, 255 - (pos - 85) * 3) ∧
      (pos - 85) * 3 ≤ 255 := by
  refine ⟨by decide, by decide, ?_, by omega⟩
  rw [wheelArgs_nat pos (by omega), if_neg (by omega), if_pos h₂]

/-- C8 amended, at pos = 169, the last position of the second segment. -/
theorem wheel_boundary_85_witness : wheelArgs 169 = (0, (169 - 85) * 3, 255 - (169 - 85) * 3) :=
  (wheel_boundary_85 169 (by decide) (by decide)).2.2.1

/-! ## The rate limiter of `DotStar_CycleColor` -/

/-- C9: for every driver state, clock readings and interval `wait` with
`nextRotation + wait` not overflowing `unsigned long`, `DotStar_CycleColor(wait)`
either does its work or does nothing. If the clock reading of the test has not passed
the deadline `nextRotation + wait` (in particular if it has not reached it), the whole
driver state (phase, pixel, deadline) is unchanged and no platform call is made. When
the reading has passed the deadline, the phase becomes (phase + 1) mod 256 and
`nextRotation` is set to the clock reading of the assignment; with a single clock
reading `now` for both `millis()` calls that is `now`. -/
theorem DotStar_CycleColor_gate (s : TinyPICO) (wait now₁ now₂ : Nat)
    (h : s.nextRotation + wait < 4294967296) :
    (now₁ < s.nextRotation + wait → DotStar_CycleColor s wait now₁ now₂ = (s, [])) ∧
      (now₁ ≤ s.nextRotation + wait → DotStar_CycleColor s wait now₁ now₂ = (s, [])) ∧
      (s.nextRotation + wait < now₁ →
        (DotStar_CycleColor s wait now₁ now₂).1.colorRotation = (s.colorRotation + 1) % 256 ∧
          (DotStar_CycleColor s wait now₁ now₂).1.nextRotation = now₂) ∧
      (DotStar_CycleColor s wait now₁ now₂ = (s, []) ∨
        ((DotStar_CycleColor s wait now₁ now₂).1.colorRotation = (s.colorRotation + 1) % 256 ∧
          (DotStar_CycleColor s wait now₁ now₂).1.nextRotation = now₂)) := by
  have ha := addULong_of_lt _ _ h
  have idle : now₁ ≤ s.nextRotation + wait → DotStar_CycleColor s wait now₁ now₂ = (s, []) := by
    intro hle
    unfold DotStar_CycleColor
    rw [if_neg (by omega)]
  have work : s.nextRotation + wait < now₁ →
      (DotStar_CycleColor s wait now₁ now₂).1.colorRotation = (s.colorRotation + 1) % 256 ∧
        (DotStar_CycleColor s wait now₁ now₂).1.nextRotation = now₂ := by
    intro hlt
    rw [CycleColor_state s wait now₁ now₂ (by omega)]
    exact ⟨rfl, rfl⟩
  refine ⟨fun hlt => idle (Nat.le_of_lt hlt), idle, work, ?_⟩
  rcases Nat.lt_or_ge (s.nextRotation + wait) now₁ with hlt | hge
  · exact Or.inr (work hlt)
  · exact Or.inl (idle hge)

/-- C9, on a fresh driver with `wait` = 10 at clock reading 5: nothing happens. -/
theorem DotStar_CycleColor_gate_witness :
    DotStar_CycleColor (TinyPICO.new 0 0 false).1 10 5 5 = ((TinyPICO.new 0 0 false).1, []) :=
  (DotStar_CycleColor_gate (TinyPICO.new 0 0 false).1 10 5 5 (by decide)).1 (by decide)

/-! ## The battery voltage cache -/

theorem GetBatteryVoltage_samples (s : TinyPICO) (now₁ now₂ cal : Nat)
    (hv : s.nextVoltage < 4294967296) (hn : now₁ < 4294967296) (hne : s.nextVoltage ≠ now₁) :
    (GetBatteryVoltage s now₁ now₂ cal).2.1 ≠ [] ∧
      (GetBatteryVoltage s now₁ now₂ cal).1.nextVoltage = addULong now₂ 1000 ∧
      (GetBatteryVoltage s now₁ now₂ cal).2.2 = (cal * 602 % 4294967296) / 160 := by
  have hg : subULong s.nextVoltage now₁ > 0 := by
    unfold subULong
    omega
  unfold GetBatteryVoltage
  rw [if_pos hg]
  exact ⟨by simp, rfl, rfl⟩

/-- C10 fails on the code. A driver is constructed at clock time 0. A call of
`GetBatteryVoltage` at time 5 with a calibrated reading of 1000 takes a fresh sample,
sets the deadline to 1005 and returns 3762 mV. A second call at time 6, inside the
1000 ms window, with a calibrated reading of 800 does not return the cached value:
the guard `nextVoltage - millis() > 0` is 999 > 0, so the ADC is sampled again, the
deadline moves to 1006, the cached value is overwritten and 3010 mV is returned. -/
theorem GetBatteryVoltage_resamples_within_window :
    (GetBatteryVoltage (TinyPICO.new 0 0 false).1 5 5 1000).2.1 ≠ [] ∧
      (GetBatteryVoltage (TinyPICO.new 0 0 false).1 5 5 1000).1.nextVoltage = 1005 ∧
      (GetBatteryVoltage (TinyPICO.new 0 0 false).1 5 5 1000).2.2 = 3762 ∧
      subULong 1005 6 = 999 ∧
      (GetBatteryVoltage (GetBatteryVoltage (TinyPICO.new 0 0 false).1 5 5 1000).1 6 6 800).2.1 =
        [ Event.analogRead BAT_VOLTAGE, Event.esp_adc_cal_characterize,
          Event.analogSetPinAttenuation BAT_VOLTAGE, Event.analogReadMilliVolts BAT_VOLTAGE ] ∧
      (GetBatteryVoltage (GetBatteryVoltage (TinyPICO.new 0 0 false).1 5 5 1000).1 6 6
        800).1.nextVoltage = 1006 ∧
      (GetBatteryVoltage (GetBatteryVoltage (TinyPICO.new 0 0 false).1 5 5 1000).1 6 6
        800).1.lastMeasuredVoltage = 3010 ∧
      (GetBatteryVoltage (GetBatteryVoltage (TinyPICO.new 0 0 false).1 5 5 1000).1 6 6
        800).2.2 = 3010 := by
  decide

/-- C11 fails on the code at exactly 1000 ms. A driver is constructed at clock time 0. A
call of `GetBatteryVoltage` at time 5 with a calibrated reading of 1000 takes a fresh
sample, sets the deadline to 1005 and returns 3762 mV. A following call at time 1005,
exactly 1000 ms later, with a calibrated reading of 800 finds
`nextVoltage - millis()` equal to 0, so it makes no platform call, leaves the state as
it is and returns the old 3762 mV; one millisecond later, at time 1006, the same call
samples and returns 3010 mV. -/
theorem GetBatteryVoltage_skips_at_deadline :
    (GetBatteryVoltage (TinyPICO.new 0 0 false).1 5 5 1000).2.1 ≠ [] ∧
      (GetBatteryVoltage (TinyPICO.new 0 0 false).1 5 5 1000).1.nextVoltage = 1005 ∧
      (GetBatteryVoltage (TinyPICO.new 0 0 false).1 5 5 1000).2.2 = 3762 ∧
      subULong 1005 1005 = 0 ∧
      GetBatteryVoltage (GetBatteryVoltage (TinyPICO.new 0 0 false).1 5 5 1000).1
          1005 1005 800 =
        ((GetBatteryVoltage (TinyPICO.new 0 0 false).1 5 5 1000).1, [], 3762) ∧
      (GetBatteryVoltage (GetBatteryVoltage (TinyPICO.new 0 0 false).1 5 5 1000).1
          1006 1006 800).2.2 = 3010 := by
  decide

/-! ## The charge-status line -/

theorem IsChargingBattery_loop_calls (read : Nat → Int) (k i : Nat) (acc : Int) :
    (IsChargingBattery_loop read k i acc).2 = List.replicate k (Event.digitalRead BAT_CHARGE) := by
  induction k generalizing i acc with
  | zero => rfl
  | succ k ih =>
    simp only [IsChargingBattery_loop, List.replicate_succ, ih]

theorem IsChargingBattery_loop_zero (read : Nat → Int) (k i : Nat) (acc : Int)
    (hacc : 0 ≤ acc) (hread : ∀ j, j < k → 0 ≤ read (i + j)) :
    0 ≤ (IsChargingBattery_loop read k i acc).1 ∧
      ((IsChargingBattery_loop read k i acc).1 = 0 ↔
        acc = 0 ∧ ∀ j, j < k → read (i + j) = 0) := by
  induction k generalizing i acc with
  | zero =>
    simp only [IsChargingBattery_loop]
    exact ⟨hacc, fun h => ⟨h, fun j hj => absurd hj (Nat.not_lt_zero j)⟩, fun h => h.1⟩
  | succ k ih =>
    have h0 : 0 ≤ read i := by simpa using hread 0 (Nat.succ_pos k)
    have hrest : ∀ j, j < k → 0 ≤ read (i + 1 + j) := by
      intro j hj
      have := hread (j + 1) (Nat.succ_lt_succ hj)
      rwa [show i + (j + 1) = i + 1 + j by omega] at this
    obtain ⟨hnn, hiff⟩ := ih (i + 1) (acc + read i) (by omega) hrest
    simp only [IsChargingBattery_loop]
    refine ⟨hnn, ?_⟩
    rw [hiff]
    constructor
    · rintro ⟨hs, hall⟩
      refine ⟨by omega, ?_⟩
      intro j hj
      cases j with
      | zero => simpa using (show read i = 0 by omega)
      | succ j =>
        have := hall j (Nat.lt_of_succ_lt_succ hj)
        rwa [show i + 1 + j = i + (j + 1) by omega] at this
    · rintro ⟨ha, hall⟩
      have hi : read i = 0 := by simpa using hall 0 (Nat.succ_pos k)
      refine ⟨by omega, ?_⟩
      intro j hj
      have := hall (j + 1) (Nat.succ_lt_succ hj)
      rwa [show i + (j + 1) = i + 1 + j by omega] at this

/-- C12: `IsChargingBattery` reads the charge-status line exactly 10 times and, for
every sequence of 10 sample values (each 0 = low or 1 = high), returns true if and
only if all 10 samples are low; a high sample at any of the 10 positions makes it
return false. -/
theorem IsChargingBattery_all_low (read : Nat → Int)
    (h : ∀ i, i < 10 → read i = 0 ∨ read i = 1) :
    (IsChargingBattery read).2 = List.replicate 10 (Event.digitalRead BAT_CHARGE) ∧
      ((IsChargingBattery read).1 = true ↔ ∀ i, i < 10 → read i = 0) ∧
      (∀ i, i < 10 → read i = 1 → (IsChargingBattery read).1 = false) := by
  have hnn : ∀ j, j < 10 → 0 ≤ read (0 + j) := by
    intro j hj
    rw [Nat.zero_add]
    rcases h j hj with h0 | h1 <;> omega
  have hz := (IsChargingBattery_loop_zero read 10 0 0 (le_refl 0) hnn).2
  have hiff : (IsChargingBattery read).1 = true ↔ ∀ i, i < 10 → read i = 0 := by
    simp only [IsChargingBattery, decide_eq_true_eq]
    rw [hz]
    constructor
    · intro hh i hi
      simpa using hh.2 i hi
    · intro hh
      exact ⟨rfl, fun j hj => by simpa using hh j hj⟩
  refine ⟨IsChargingBattery_loop_calls read 10 0 0, hiff, ?_⟩
  intro i hi h1
  cases hb : (IsChargingBattery read).1 with
  | false => rfl
  | true =>
    have := hiff.mp hb i hi
    omega

/-- C12, with a single high sample at the last position: the result is false. -/
theorem IsChargingBattery_all_low_witness :
    (IsChargingBattery (fun i => if i = 9 then 1 else 0)).1 = false :=
  (IsChargingBattery_all_low (fun i => if i = 9 then 1 else 0)
    (by decide)).2.2 9 (by decide) (by decide)

/-! ## Power -/

/-- C13: for every boolean `state`, `DotStar_SetPower(state)` performs exactly three
pin operations: it writes the negation of `state` to the power-enable line (LOW when
enabling, HIGH when disabling) and then sets the mode of the data line and of the clock
line, to OUTPUT when `state` is true and to INPUT_PULLDOWN when it is false; no field
of the driver is changed. -/
theorem DotStar_SetPower_pins (s : TinyPICO) (l : Link) (state : Bool) :
    DotStar_SetPower true =
        [ Event.digitalWrite DOTSTAR_PWR LOW, Event.pinMode DOTSTAR_DATA PinMode.OUTPUT,
          Event.pinMode DOTSTAR_CLK PinMode.OUTPUT ] ∧
      DotStar_SetPower false =
        [ Event.digitalWrite DOTSTAR_PWR HIGH,
          Event.pinMode DOTSTAR_DATA PinMode.INPUT_PULLDOWN,
          Event.pinMode DOTSTAR_CLK PinMode.INPUT_PULLDOWN ] ∧
      (DotStar_SetPower state).length = 3 ∧
      Op.step s (Op.SetPower state) = (s, DotStar_SetPower state) ∧
      Link.after l (DotStar_SetPower state) =
        { pwr := !state,
          dataMode := if state then PinMode.OUTPUT else PinMode.INPUT_PULLDOWN,
          clkMode := if state then PinMode.OUTPUT else PinMode.INPUT_PULLDOWN } := by
  refine ⟨rfl, rfl, rfl, rfl, ?_⟩
  cases state <;> rfl

/-! ## Transmission and power -/

theorem Link_after_append (l : Link) (a b : List Event) :
    Link.after l (a ++ b) = Link.after (Link.after l a) b := by
  simp only [Link.after, List.foldl_append]

theorem poweredWhileClocking_append (l : Link) (a b : List Event) :
    poweredWhileClocking l (a ++ b) =
      (poweredWhileClocking l a && poweredWhileClocking (Link.after l a) b) := by
  induction a generalizing l with
  | nil => simp [poweredWhileClocking, Link.after]
  | cons e es ih =>
    show ((!isSignalWrite e || l.powered) && poweredWhileClocking (l.step e) (es ++ b)) = _
    rw [ih]
    simp only [poweredWhileClocking, Link.after, List.foldl_cons, Bool.and_assoc]

theorem swspi_out_loop_link (l : Link) (k n : Nat) :
    Link.after l (swspi_out_loop k n) = l ∧
      (l.powered = true → poweredWhileClocking l (swspi_out_loop k n) = true) := by
  induction k generalizing n with
  | zero => exact ⟨rfl, fun _ => rfl⟩
  | succ k ih =>
    obtain ⟨ha, hp⟩ := ih ((n <<< 1) % 256)
    constructor
    · have hs : Link.after l
          [ Event.digitalWrite DOTSTAR_DATA (if n &&& 0x80 ≠ 0 then HIGH else LOW),
            Event.digitalWrite DOTSTAR_CLK HIGH, Event.digitalWrite DOTSTAR_CLK LOW ] = l := rfl
      rw [swspi_out_loop, Link_after_append, hs]
      exact ha
    · intro h
      rw [swspi_out_loop, poweredWhileClocking_append]
      have hs : Link.after l
          [ Event.digitalWrite DOTSTAR_DATA (if n &&& 0x80 ≠ 0 then HIGH else LOW),
            Event.digitalWrite DOTSTAR_CLK HIGH, Event.digitalWrite DOTSTAR_CLK LOW ] = l := rfl
      rw [hs, hp h]
      simp [poweredWhileClocking, Link.step, isSignalWrite, h, DOTSTAR_PWR, DOTSTAR_DATA,
        DOTSTAR_CLK]

theorem swspi_out_link (l : Link) (n : Nat) :
    Link.after l (swspi_out n) = l ∧
      (l.powered = true → poweredWhileClocking l (swspi_out n) = true) := by
  obtain ⟨ha, hp⟩ := swspi_out_loop_link l 8 n
  constructor
  · rw [swspi_out, Link_after_append, ha]
    rfl
  · intro h
    rw [swspi_out, poweredWhileClocking_append, ha, hp h]
    rfl

theorem frame_link (l : Link) (bytes : List Nat) :
    Link.after l (bytes.flatMap swspi_out) = l ∧
      (l.powered = true → poweredWhileClocking l (bytes.flatMap swspi_out) = true) := by
  induction bytes with
  | nil => exact ⟨rfl, fun _ => rfl⟩
  | cons b bs ih =>
    obtain ⟨ha, hp⟩ := swspi_out_link l b
    constructor
    · rw [List.flatMap_cons, Link_after_append, ha, ih.1]
    · intro h
      rw [List.flatMap_cons, poweredWhileClocking_append, ha, hp h, ih.2 h]
      rfl

theorem init_link (l : Link) :
    (Link.after l (swspi_init ++ [Event.delay 10])).powered = true ∧
      poweredWhileClocking l (swspi_init ++ [Event.delay 10]) = true := by
  rcases l with ⟨p, d, c⟩
  constructor <;> rfl

theorem Show_link (s : TinyPICO) (l : Link) (h : s.isInit = true → l.powered = true) :
    poweredWhileClocking l (DotStar_Show s).2 = true ∧
      (Link.after l (DotStar_Show s).2).powered = true := by
  rw [Show_trace]
  cases hi : s.isInit with
  | true =>
    have e : (DotStar_Show_init s).2 = [] := by simp [DotStar_Show_init, hi]
    rw [e, List.nil_append]
    exact ⟨(frame_link l _).2 (h hi), by rw [(frame_link l _).1]; exact h hi⟩
  | false =>
    have e : (DotStar_Show_init s).2 = swspi_init ++ [Event.delay 10] := by
      simp [DotStar_Show_init, hi]
    obtain ⟨hp, hc⟩ := init_link l
    rw [e]
    generalize swspi_init ++ [Event.delay 10] = A at hp hc ⊢
    constructor
    · rw [poweredWhileClocking_append, hc, (frame_link _ _).2 hp]
      rfl
    · rw [Link_after_append, (frame_link _ _).1]
      exact hp

theorem frame_unpowered (l : Link) (s : TinyPICO) (h : l.powered = false) :
    poweredWhileClocking l ((DotStar_Show_bytes s).flatMap swspi_out) = false := by
  have hb : ∃ bs, DotStar_Show_bytes s = 0 :: bs := ⟨_, rfl⟩
  obtain ⟨bs, hbs⟩ := hb
  rw [hbs]
  show ((!isSignalWrite (Event.digitalWrite DOTSTAR_DATA (if 0 &&& 0x80 ≠ 0 then HIGH else LOW))
    || l.powered) && _) = false
  rw [h]
  rfl

theorem SetPower_false_then_Show (l : Link) (s : TinyPICO) (h : s.isInit = true) :
    (Op.run s [Op.SetPower false, Op.Show]).2 =
        DotStar_SetPower false ++ (DotStar_Show_bytes s).flatMap swspi_out ∧
      poweredWhileClocking l (Op.run s [Op.SetPower false, Op.Show]).2 = false := by
  have e : (Op.run s [Op.SetPower false, Op.Show]).2 =
      DotStar_SetPower false ++ (DotStar_Show_bytes s).flatMap swspi_out := by
    show DotStar_SetPower false ++ ((DotStar_Show s).2 ++ []) = _
    rw [List.append_nil, Show_trace]
    simp [DotStar_Show_init, h]
  refine ⟨e, ?_⟩
  rw [e, poweredWhileClocking_append]
  have hoff : (Link.after l (DotStar_SetPower false)).powered = false := by
    rcases l with ⟨p, d, c⟩
    rfl
  rw [frame_unpowered _ s hoff, Bool.and_false]

/-- C14, as stated, fails: on a freshly constructed driver the calls `DotStar_Show`,
`DotStar_SetPower(false)`, `DotStar_Show` clock out the second frame while the
power-enable line is high and the data and clock lines are INPUT_PULLDOWN. The second
`DotStar_Show` performs no lazy initialisation: after the three pin
operations of `DotStar_SetPower(false)` its platform calls are the frame alone. -/
theorem unpowered_transmission_counterexample :
    poweredWhileClocking { pwr := HIGH, dataMode := PinMode.INPUT, clkMode := PinMode.INPUT }
        ((TinyPICO.new 0 0 false).2 ++
          (Op.run (TinyPICO.new 0 0 false).1 [Op.Show, Op.SetPower false, Op.Show]).2) = false ∧
      (Op.run (TinyPICO.new 0 0 false).1 [Op.Show, Op.SetPower false, Op.Show]).2 =
        (swspi_init ++ [Event.delay 10] ++
            (DotStar_Show_bytes (TinyPICO.new 0 0 false).1).flatMap swspi_out) ++
          (DotStar_SetPower false ++
            (DotStar_Show_bytes (TinyPICO.new 0 0 false).1).flatMap swspi_out) := by
  have hi : (DotStar_Show (TinyPICO.new 0 0 false).1).1.isInit = true := by
    rw [Show_state]
  have hr : (Op.run (TinyPICO.new 0 0 false).1 [Op.Show, Op.SetPower false, Op.Show]).2 =
      (DotStar_Show (TinyPICO.new 0 0 false).1).2 ++
        (Op.run (DotStar_Show (TinyPICO.new 0 0 false).1).1 [Op.SetPower false, Op.Show]).2 := rfl
  constructor
  · rw [hr, ← List.append_assoc, poweredWhileClocking_append,
      (SetPower_false_then_Show _ _ hi).2, Bool.and_false]
  · have hb : DotStar_Show_bytes (DotStar_Show (TinyPICO.new 0 0 false).1).1 =
        DotStar_Show_bytes (TinyPICO.new 0 0 false).1 := by
      rw [Show_state]
      rfl
    have ht : (DotStar_Show_init (TinyPICO.new 0 0 false).1).2 =
        swspi_init ++ [Event.delay 10] := rfl
    rw [hr, (SetPower_false_then_Show
      { pwr := HIGH, dataMode := PinMode.INPUT, clkMode := PinMode.INPUT } _ hi).1, hb,
      Show_trace, ht]

theorem Show_track (t : TinyPICO) (l : Link) (off : Bool) (hl : l.powered = !off) :
    poweredWhileClocking l (DotStar_Show t).2 = !(t.isInit && off) ∧
      (Link.after l (DotStar_Show t).2).powered = !(t.isInit && off) := by
  cases hi : t.isInit with
  | false =>
    obtain ⟨h1, h2⟩ := Show_link t l (fun h => absurd h (by simp [hi]))
    rw [h1, h2]
    exact ⟨rfl, rfl⟩
  | true =>
    cases off with
    | false =>
      obtain ⟨h1, h2⟩ := Show_link t l (fun _ => hl)
      rw [h1, h2]
      exact ⟨rfl, rfl⟩
    | true =>
      have hp : l.powered = false := hl
      have e : (DotStar_Show t).2 = (DotStar_Show_bytes t).flatMap swspi_out := by
        rw [Show_trace]
        simp [DotStar_Show_init, hi]
      rw [e, frame_unpowered l t hp, (frame_link l _).1, hp]
      exact ⟨rfl, rfl⟩

theorem step_track (s : TinyPICO) (l : Link) (off : Bool) (op : Op) (hl : l.powered = !off) :
    poweredWhileClocking l (Op.step s op).2 = !Op.transmitsUnpowered s off op ∧
      (Link.after l (Op.step s op).2).powered = !Op.powerOffAfter s off op := by
  cases op with
  | SetPower state =>
    rcases l with ⟨p, d, c⟩
    cases state <;> exact ⟨rfl, rfl⟩
  | SetBrightness b =>
    refine ⟨rfl, ?_⟩
    simpa [Op.step, Op.powerOffAfter, Op.transmits, Link.after] using hl
  | SetPixelColor r g b =>
    exact Show_track { s with pixel0 := b, pixel1 := g, pixel2 := r } l off hl
  | SetPixelColor_packed c =>
    exact Show_track
      { s with pixel0 := c % 256, pixel1 := (c >>> 8) % 256, pixel2 := (c >>> 16) % 256 }
      l off hl
  | Clear => exact Show_track { s with pixel0 := 0, pixel1 := 0, pixel2 := 0 } l off hl
  | Show => exact Show_track s l off hl
  | CycleColor wait now₁ now₂ =>
    by_cases he : now₁ > addULong s.nextRotation wait
    · obtain ⟨h1, h2⟩ := Show_track
        { s with
          nextRotation := now₂
          colorRotation := (s.colorRotation + 1) % 256
          pixel0 := (wheelArgs (toUInt8 (255 - (((s.colorRotation + 1) % 256 : Nat) : Int)))).2.2
          pixel1 := (wheelArgs (toUInt8 (255 - (((s.colorRotation + 1) % 256 : Nat) : Int)))).2.1
          pixel2 := (wheelArgs (toUInt8 (255 - (((s.colorRotation + 1) % 256 : Nat) : Int)))).1 }
        l off hl
      obtain ⟨h3, h4⟩ := Show_track (DotStar_SetPixelColor
          { s with nextRotation := now₂, colorRotation := (s.colorRotation + 1) % 256 }
          (wheelArgs (toUInt8 (255 - (((s.colorRotation + 1) % 256 : Nat) : Int)))).1
          (wheelArgs (toUInt8 (255 - (((s.colorRotation + 1) % 256 : Nat) : Int)))).2.1
          (wheelArgs (toUInt8 (255 - (((s.colorRotation + 1) % 256 : Nat) : Int)))).2.2).1
        (Link.after l (DotStar_SetPixelColor
          { s with nextRotation := now₂, colorRotation := (s.colorRotation + 1) % 256 }
          (wheelArgs (toUInt8 (255 - (((s.colorRotation + 1) % 256 : Nat) : Int)))).1
          (wheelArgs (toUInt8 (255 - (((s.colorRotation + 1) % 256 : Nat) : Int)))).2.1
          (wheelArgs (toUInt8 (255 - (((s.colorRotation + 1) % 256 : Nat) : Int)))).2.2).2)
        (s.isInit && off) h2
      simp only [DotStar_SetPixelColor, Show_state] at h3 h4
      simp only [Op.step, DotStar_CycleColor, if_pos he, Op.transmitsUnpowered,
        Op.powerOffAfter, Op.transmits, he, decide_True, Bool.true_and, if_true]
      simp only [DotStar_SetPixelColor, Show_state]
      constructor
      · rw [poweredWhileClocking_append, h1, h3]
        cases s.isInit <;> cases off <;> rfl
      · rw [Link_after_append, h4]
        cases s.isInit <;> cases off <;> rfl
    · simp only [Op.step, DotStar_CycleColor, if_neg he, Op.transmitsUnpowered,
        Op.powerOffAfter, Op.transmits, he, decide_False, Bool.false_and, Bool.not_false]
      exact ⟨rfl, by simpa [Link.after] using hl⟩

theorem run_track (ops : List Op) (s : TinyPICO) (l : Link) (off : Bool)
    (hl : l.powered = !off) :
    poweredWhileClocking l (Op.run s ops).2 = Op.neverTransmitsUnpowered s off ops := by
  induction ops generalizing s l off with
  | nil => rfl
  | cons op ops ih =>
    obtain ⟨h1, h2⟩ := step_track s l off op hl
    have h3 := ih (Op.step s op).1 (Link.after l (Op.step s op).2) (Op.powerOffAfter s off op) h2
    show poweredWhileClocking l ((Op.step s op).2 ++ (Op.run (Op.step s op).1 ops).2) =
      (!Op.transmitsUnpowered s off op &&
        Op.neverTransmitsUnpowered (Op.step s op).1 (Op.powerOffAfter s off op) ops)
    rw [poweredWhileClocking_append, h1, h3]

/-- C14, amended: pixel data is never transmitted on an unpowered link unless the caller
transmits while it has the power switched off on an initialised driver. For every
sequence of public operations (`DotStar_SetPower` with either argument,
`DotStar_SetBrightness`, `DotStar_SetPixelColor` in either form, `DotStar_Clear`,
`DotStar_Show`, `DotStar_CycleColor`) applied to a freshly constructed driver, whatever
the lines were before construction: every write to the data or clock line happens while
the power-enable line is low and both lines are outputs if and only if no call clocks
out a frame after a `DotStar_SetPower(false)` that itself came after the first
transmission, with no `DotStar_SetPower(true)` in between. The lazy initialisation runs on the first
transmission after construction only: a `DotStar_Show` that follows
`DotStar_SetPower(false)` on an initialised driver performs no initialisation, its
platform calls are the frame alone. -/
theorem DotStar_powered_while_clocking (l₀ : Link) (now v0 : Nat) (t0 : Bool)
    (ops : List Op) :
    (poweredWhileClocking l₀
          ((TinyPICO.new now v0 t0).2 ++ (Op.run (TinyPICO.new now v0 t0).1 ops).2) = true ↔
        Op.neverTransmitsUnpowered (TinyPICO.new now v0 t0).1 true ops = true) ∧
      ∀ s : TinyPICO, s.isInit = true →
        (Op.run s [Op.SetPower false, Op.Show]).2 =
          DotStar_SetPower false ++ (DotStar_Show_bytes s).flatMap swspi_out := by
  constructor
  · have hc : poweredWhileClocking l₀ (TinyPICO.new now v0 t0).2 = true := by
      rcases l₀ with ⟨p, d, c⟩
      rfl
    have hoff : (Link.after l₀ (TinyPICO.new now v0 t0).2).powered = !true := by
      rcases l₀ with ⟨p, d, c⟩
      rfl
    rw [poweredWhileClocking_append, hc, Bool.true_and,
      run_track ops (TinyPICO.new now v0 t0).1 _ true hoff]
  · intro s hs
    exact (SetPower_false_then_Show l₀ s hs).1

/-- C14 amended, on a power cycle: the calls `DotStar_SetPower(false)`, `DotStar_Show`,
`DotStar_SetPower(false)`, `DotStar_SetPower(true)`, `DotStar_CycleColor(0)`,
`DotStar_Clear` after construction at clock time 0 never clock out a frame
unpowered. -/
theorem DotStar_powered_while_clocking_witness :
    poweredWhileClocking { pwr := HIGH, dataMode := PinMode.INPUT, clkMode := PinMode.INPUT }
      ((TinyPICO.new 0 0 false).2 ++
        (Op.run (TinyPICO.new 0 0 false).1
          [Op.SetPower false, Op.Show, Op.SetPower false, Op.SetPower true,
            Op.CycleColor 0 1 1, Op.Clear]).2) = true :=
  (DotStar_powered_while_clocking
    { pwr := HIGH, dataMode := PinMode.INPUT, clkMode := PinMode.INPUT } 0 0 false
    [Op.SetPower false, Op.Show, Op.SetPower false, Op.SetPower true,
      Op.CycleColor 0 1 1, Op.Clear]).1.mpr (by decide)

/-- C15: `DotStar_SetBrightness` is a pure state mutation. For every state and level b
it changes only the stored brightness: the pixel bytes, the init flag, the colour-wheel
phase, both rate-limiter deadlines and the remaining fields are unchanged, and it makes
no platform call. The new level shows in the frame of a later `DotStar_Show`, whose
colour bytes are scaled by the new stored value. -/
theorem DotStar_SetBrightness_pure (s : TinyPICO) (b : Nat) (h : s.WF) :
    DotStar_SetBrightness s b = { s with brightness := (b + 1) % 256 } ∧
      ((DotStar_SetBrightness s b).pixel0 = s.pixel0 ∧
        (DotStar_SetBrightness s b).pixel1 = s.pixel1 ∧
        (DotStar_SetBrightness s b).pixel2 = s.pixel2 ∧
        (DotStar_SetBrightness s b).isInit = s.isInit ∧
        (DotStar_SetBrightness s b).colorRotation = s.colorRotation ∧
        (DotStar_SetBrightness s b).nextRotation = s.nextRotation ∧
        (DotStar_SetBrightness s b).nextVoltage = s.nextVoltage ∧
        (DotStar_SetBrightness s b).lastMeasuredVoltage = s.lastMeasuredVoltage ∧
        (DotStar_SetBrightness s b).isToneInit = s.isToneInit) ∧
      (Op.step s (Op.SetBrightness b)).2 = [] ∧
      (Op.run s [Op.SetBrightness b, Op.Show]).2 =
        (DotStar_Show_init s).2 ++
          List.flatMap
            [0x00, 0x00, 0x00, 0x00, 0xFF, scaleSpec ((b + 1) % 256) s.pixel0,
              scaleSpec ((b + 1) % 256) s.pixel1, scaleSpec ((b + 1) % 256) s.pixel2, 0xFF]
            swspi_out := by
  obtain ⟨hv, hl, hc, hn, -, h0, h1, h2⟩ := h
  have w : (DotStar_SetBrightness s b).WF :=
    ⟨hv, hl, hc, hn, Nat.mod_lt _ (by decide), h0, h1, h2⟩
  refine ⟨rfl, ⟨rfl, rfl, rfl, rfl, rfl, rfl, rfl, rfl, rfl⟩, rfl, ?_⟩
  have hi : (DotStar_Show_init (DotStar_SetBrightness s b)).2 = (DotStar_Show_init s).2 := by
    unfold DotStar_Show_init DotStar_SetBrightness
    cases s.isInit <;> rfl
  show [] ++ ((DotStar_Show (DotStar_SetBrightness s b)).2 ++ []) = _
  rw [List.nil_append, List.append_nil, Show_trace, Show_bytes_eq _ w, hi]
  rfl

/-- C15, on a driver with blue 10, green 20, red 30 and level 0: no platform call. -/
theorem DotStar_SetBrightness_pure_witness :
    (Op.step
      { nextVoltage := 0, lastMeasuredVoltage := 0, colorRotation := 0, nextRotation := 0,
        brightness := 129, pixel0 := 10, pixel1 := 20, pixel2 := 30, isInit := true,
        isToneInit := false } (Op.SetBrightness 0)).2 = [] :=
  (DotStar_SetBrightness_pure
    { nextVoltage := 0, lastMeasuredVoltage := 0, colorRotation := 0, nextRotation := 0,
      brightness := 129, pixel0 := 10, pixel1 := 20, pixel2 := 30, isInit := true,
      isToneInit := false } 0 (by decide)).2.2.1

/-! ## The bits of one byte on the wire -/

theorem bit7_testBit (m : Nat) : (if m &&& 0x80 ≠ 0 then HIGH else LOW) = m.testBit 7 := by
  rw [show (0x80 : Nat) = 2 ^ 7 from rfl, Nat.and_two_pow]
  cases m.testBit 7 <;> simp

theorem shl_testBit (m i : Nat) (hi : i < 7) :
    ((m <<< 1) % 256).testBit (i + 1) = m.testBit i := by
  rw [show (256 : Nat) = 2 ^ 8 from rfl, Nat.testBit_mod_two_pow, Nat.testBit_shiftLeft]
  simp
  omega

theorem swspi_out_bits (n : Nat) :
    swspi_out n =
      [ Event.digitalWrite DOTSTAR_DATA (n.testBit 7),
        Event.digitalWrite DOTSTAR_CLK HIGH, Event.digitalWrite DOTSTAR_CLK LOW,
        Event.digitalWrite DOTSTAR_DATA (n.testBit 6),
        Event.digitalWrite DOTSTAR_CLK HIGH, Event.digitalWrite DOTSTAR_CLK LOW,
        Event.digitalWrite DOTSTAR_DATA (n.testBit 5),
        Event.digitalWrite DOTSTAR_CLK HIGH, Event.digitalWrite DOTSTAR_CLK LOW,
        Event.digitalWrite DOTSTAR_DATA (n.testBit 4),
        Event.digitalWrite DOTSTAR_CLK HIGH, Event.digitalWrite DOTSTAR_CLK LOW,
        Event.digitalWrite DOTSTAR_DATA (n.testBit 3),
        Event.digitalWrite DOTSTAR_CLK HIGH, Event.digitalWrite DOTSTAR_CLK LOW,
        Event.digitalWrite DOTSTAR_DATA (n.testBit 2),
        Event.digitalWrite DOTSTAR_CLK HIGH, Event.digitalWrite DOTSTAR_CLK LOW,
        Event.digitalWrite DOTSTAR_DATA (n.testBit 1),
        Event.digitalWrite DOTSTAR_CLK HIGH, Event.digitalWrite DOTSTAR_CLK LOW,
        Event.digitalWrite DOTSTAR_DATA (n.testBit 0),
        Event.digitalWrite DOTSTAR_CLK HIGH, Event.digitalWrite DOTSTAR_CLK LOW,
        Event.delay 1 ] := by
  have e7 : ∀ m, ((m <<< 1) % 256).testBit 7 = m.testBit 6 := fun m => shl_testBit m 6 (by decide)
  have e6 : ∀ m, ((m <<< 1) % 256).testBit 6 = m.testBit 5 := fun m => shl_testBit m 5 (by decide)
  have e5 : ∀ m, ((m <<< 1) % 256).testBit 5 = m.testBit 4 := fun m => shl_testBit m 4 (by decide)
  have e4 : ∀ m, ((m <<< 1) % 256).testBit 4 = m.testBit 3 := fun m => shl_testBit m 3 (by decide)
  have e3 : ∀ m, ((m <<< 1) % 256).testBit 3 = m.testBit 2 := fun m => shl_testBit m 2 (by decide)
  have e2 : ∀ m, ((m <<< 1) % 256).testBit 2 = m.testBit 1 := fun m => shl_testBit m 1 (by decide)
  have e1 : ∀ m, ((m <<< 1) % 256).testBit 1 = m.testBit 0 := fun m => shl_testBit m 0 (by decide)
  simp only [swspi_out, swspi_out_loop, bit7_testBit, List.cons_append, List.nil_append,
    e7, e6, e5, e4, e3, e2, e1]

theorem rising_step (d b : Bool) (es : List Event) :
    dataAtRisingEdges d LOW
        (Event.digitalWrite DOTSTAR_DATA b :: Event.digitalWrite DOTSTAR_CLK HIGH ::
          Event.digitalWrite DOTSTAR_CLK LOW :: es) =
      b :: dataAtRisingEdges b LOW es := by
  simp [dataAtRisingEdges, DOTSTAR_DATA, DOTSTAR_CLK]

/-- C16: for every byte n, `swspi_out(n)` runs its loop body exactly 8 times and makes
exactly 24 pin writes, followed by `delay(1)`: for bit index i = 7 down to 0 the data
line is written with bit i of n, then the clock line is written HIGH, then LOW. With
the clock line low on entry, the eight data-line values present at the eight rising
clock edges, read most significant bit first, reassemble to n. -/
theorem swspi_out_msb_first (n : Nat) (d : Bool) (h : n < 256) :
    swspi_out n =
        List.flatMap [7, 6, 5, 4, 3, 2, 1, 0] (fun i =>
          [ Event.digitalWrite DOTSTAR_DATA (n.testBit i),
            Event.digitalWrite DOTSTAR_CLK HIGH, Event.digitalWrite DOTSTAR_CLK LOW ]) ++
          [Event.delay 1] ∧
      (swspi_out_loop 8 n).length = 24 ∧
      dataAtRisingEdges d LOW (swspi_out n) =
        [ n.testBit 7, n.testBit 6, n.testBit 5, n.testBit 4,
          n.testBit 3, n.testBit 2, n.testBit 1, n.testBit 0 ] ∧
      bitsToNat (dataAtRisingEdges d LOW (swspi_out n)) = n := by
  have hd : dataAtRisingEdges d LOW (swspi_out n) =
      [ n.testBit 7, n.testBit 6, n.testBit 5, n.testBit 4,
        n.testBit 3, n.testBit 2, n.testBit 1, n.testBit 0 ] := by
    rw [swspi_out_bits]
    simp only [rising_step]
    rfl
  have hl : (swspi_out_loop 8 n).length = 24 := by
    simp only [swspi_out_loop, List.cons_append, List.nil_append, List.length_cons,
      List.length_nil]
  refine ⟨?_, hl, hd, ?_⟩
  · rw [swspi_out_bits]
    rfl
  · rw [hd]
    simp only [bitsToNat, List.foldl_cons, List.foldl_nil, Nat.toNat_testBit]
    norm_num
    omega

/-- C16, at the byte 0xA5 with the data line low on entry. -/
theorem swspi_out_msb_first_witness :
    bitsToNat (dataAtRisingEdges false LOW (swspi_out 0xA5)) = 0xA5 :=
  (swspi_out_msb_first 0xA5 false (by decide)).2.2.2

/-! ## The init flag -/

theorem step_isInit (s : TinyPICO) (op : Op) (h : s.isInit = true) :
    (Op.step s op).1.isInit = true := by
  cases op with
  | SetPower state => exact h
  | SetBrightness b => exact h
  | SetPixelColor r g b => simp only [Op.step, DotStar_SetPixelColor, Show_state]
  | SetPixelColor_packed c => simp only [Op.step, DotStar_SetPixelColor_packed, Show_state]
  | Clear => simp only [Op.step, DotStar_Clear, Show_state]
  | Show => simp only [Op.step, Show_state]
  | CycleColor wait now₁ now₂ =>
    by_cases he : now₁ > addULong s.nextRotation wait
    · simp only [Op.step, CycleColor_state s wait now₁ now₂ he]
    · simp only [Op.step, DotStar_CycleColor, if_neg he]
      exact h

theorem run_isInit (ops : List Op) (s : TinyPICO) (h : s.isInit = true) :
    (Op.run s ops).1.isInit = true := by
  induction ops generalizing s with
  | nil => exact h
  | cons op ops ih => exact ih (Op.step s op).1 (step_isInit s op h)

theorem Show_uninit (t : TinyPICO) (h : t.isInit = false) :
    DotStar_Show t =
      ({ t with isInit := true },
        [ Event.digitalWrite DOTSTAR_PWR LOW, Event.pinMode DOTSTAR_DATA PinMode.OUTPUT,
          Event.pinMode DOTSTAR_CLK PinMode.OUTPUT, Event.digitalWrite DOTSTAR_DATA LOW,
          Event.digitalWrite DOTSTAR_CLK LOW, Event.delay 10 ] ++
          (DotStar_Show_bytes t).flatMap swspi_out) := by
  have e : DotStar_Show_init t = ({ t with isInit := true }, swspi_init ++ [Event.delay 10]) := by
    simp [DotStar_Show_init, h]
  simp only [DotStar_Show, e]
  rfl

theorem Show_linked (t : TinyPICO) (h : t.isInit = true) :
    DotStar_Show t = (t, (DotStar_Show_bytes t).flatMap swspi_out) := by
  have e : DotStar_Show_init t = (t, []) := by simp [DotStar_Show_init, h]
  simp only [DotStar_Show, e, List.nil_append]

theorem CycleColor_trace (s : TinyPICO) (wait now₁ now₂ : Nat)
    (he : now₁ > addULong s.nextRotation wait) :
    (DotStar_CycleColor s wait now₁ now₂).2 =
      (DotStar_Show_init s).2 ++
        ((DotStar_Show_bytes
              { s with
                pixel0 := (wheelArgs (255 - (s.colorRotation + 1) % 256)).2.2
                pixel1 := (wheelArgs (255 - (s.colorRotation + 1) % 256)).2.1
                pixel2 := (wheelArgs (255 - (s.colorRotation + 1) % 256)).1 }).flatMap swspi_out ++
          (DotStar_Show_bytes
              { s with
                pixel0 := (wheelArgs (255 - (s.colorRotation + 1) % 256)).2.2
                pixel1 := (wheelArgs (255 - (s.colorRotation + 1) % 256)).2.1
                pixel2 := (wheelArgs (255 - (s.colorRotation + 1) % 256)).1 }).flatMap
            swspi_out) := by
  have hp := wheelPos_nat ((s.colorRotation + 1) % 256) (Nat.mod_lt _ (by decide))
  unfold DotStar_CycleColor
  rw [if_pos he]
  simp only [DotStar_SetPixelColor, hp]
  rw [Show_trace, Show_trace, Show_state, List.append_assoc]
  have e1 : (DotStar_Show_init
      { s with
        nextRotation := now₂
        colorRotation := (s.colorRotation + 1) % 256
        pixel0 := (wheelArgs (255 - (s.colorRotation + 1) % 256)).2.2
        pixel1 := (wheelArgs (255 - (s.colorRotation + 1) % 256)).2.1
        pixel2 := (wheelArgs (255 - (s.colorRotation + 1) % 256)).1 }).2 =
      (DotStar_Show_init s).2 := by
    unfold DotStar_Show_init
    cases s.isInit <;> rfl
  rw [e1]
  rfl

/-- C17: the init flag is a two-state machine that transitions once. The constructor
leaves the flag false. In every state with the flag false (Uninitialized), whichever
call transmits first, `DotStar_Show`, `DotStar_SetPixelColor` in either form,
`DotStar_Clear` or an eligible `DotStar_CycleColor`, performs the initialisation
writes (power-enable LOW, data and clock set to OUTPUT, data LOW, clock LOW) and the
settling delay before the first frame bit and leaves the flag true (Linked); the calls
that do not transmit, `DotStar_SetBrightness`, `DotStar_SetPower` and a
`DotStar_CycleColor` before its deadline, leave the flag false. In every state with the
flag true each of the transmitting calls performs no initialisation write and emits only
its frames, and no public operation, and no sequence of them, sets the flag back to
false. -/
theorem isInit_transitions_once (u s : TinyPICO) (op : Op) (ops : List Op)
    (r g b c wait now₁ now₂ : Nat) (state : Bool)
    (hu : u.isInit = false) (hs : s.isInit = true) :
    (∀ (now v0 : Nat) (t0 : Bool),
        (TinyPICO.new now v0 t0).1.isInit = false ∧
          (DotStar_Show (TinyPICO.new now v0 t0).1).1.isInit = true ∧
          (DotStar_Show (TinyPICO.new now v0 t0).1).2 =
            [ Event.digitalWrite DOTSTAR_PWR LOW, Event.pinMode DOTSTAR_DATA PinMode.OUTPUT,
              Event.pinMode DOTSTAR_CLK PinMode.OUTPUT, Event.digitalWrite DOTSTAR_DATA LOW,
              Event.digitalWrite DOTSTAR_CLK LOW, Event.delay 10 ] ++
              (DotStar_Show_bytes (TinyPICO.new now v0 t0).1).flatMap swspi_out) ∧
      (DotStar_Show u =
          ({ u with isInit := true },
            [ Event.digitalWrite DOTSTAR_PWR LOW, Event.pinMode DOTSTAR_DATA PinMode.OUTPUT,
              Event.pinMode DOTSTAR_CLK PinMode.OUTPUT, Event.digitalWrite DOTSTAR_DATA LOW,
              Event.digitalWrite DOTSTAR_CLK LOW, Event.delay 10 ] ++
              (DotStar_Show_bytes u).flatMap swspi_out) ∧
        DotStar_SetPixelColor u r g b =
          ({ u with pixel0 := b, pixel1 := g, pixel2 := r, isInit := true },
            [ Event.digitalWrite DOTSTAR_PWR LOW, Event.pinMode DOTSTAR_DATA PinMode.OUTPUT,
              Event.pinMode DOTSTAR_CLK PinMode.OUTPUT, Event.digitalWrite DOTSTAR_DATA LOW,
              Event.digitalWrite DOTSTAR_CLK LOW, Event.delay 10 ] ++
              (DotStar_Show_bytes { u with pixel0 := b, pixel1 := g, pixel2 := r }).flatMap
                swspi_out) ∧
        DotStar_SetPixelColor_packed u c =
          ({ u with
              pixel0 := c % 256
              pixel1 := (c >>> 8) % 256
              pixel2 := (c >>> 16) % 256
              isInit := true },
            [ Event.digitalWrite DOTSTAR_PWR LOW, Event.pinMode DOTSTAR_DATA PinMode.OUTPUT,
              Event.pinMode DOTSTAR_CLK PinMode.OUTPUT, Event.digitalWrite DOTSTAR_DATA LOW,
              Event.digitalWrite DOTSTAR_CLK LOW, Event.delay 10 ] ++
              (DotStar_Show_bytes
                { u with
                  pixel0 := c % 256
                  pixel1 := (c >>> 8) % 256
                  pixel2 := (c >>> 16) % 256 }).flatMap swspi_out) ∧
        DotStar_Clear u =
          ({ u with pixel0 := 0, pixel1 := 0, pixel2 := 0, isInit := true },
            [ Event.digitalWrite DOTSTAR_PWR LOW, Event.pinMode DOTSTAR_DATA PinMode.OUTPUT,
              Event.pinMode DOTSTAR_CLK PinMode.OUTPUT, Event.digitalWrite DOTSTAR_DATA LOW,
              Event.digitalWrite DOTSTAR_CLK LOW, Event.delay 10 ] ++
              (DotStar_Show_bytes { u with pixel0 := 0, pixel1 := 0, pixel2 := 0 }).flatMap
                swspi_out) ∧
        (now₁ > addULong u.nextRotation wait →
          (DotStar_CycleColor u wait now₁ now₂).1.isInit = true ∧
            (DotStar_CycleColor u wait now₁ now₂).2 =
              [ Event.digitalWrite DOTSTAR_PWR LOW, Event.pinMode DOTSTAR_DATA PinMode.OUTPUT,
                Event.pinMode DOTSTAR_CLK PinMode.OUTPUT, Event.digitalWrite DOTSTAR_DATA LOW,
                Event.digitalWrite DOTSTAR_CLK LOW, Event.delay 10 ] ++
                ((DotStar_Show_bytes
                      { u with
                        pixel0 := (wheelArgs (255 - (u.colorRotation + 1) % 256)).2.2
                        pixel1 := (wheelArgs (255 - (u.colorRotation + 1) % 256)).2.1
                        pixel2 := (wheelArgs (255 - (u.colorRotation + 1) % 256)).1 }).flatMap
                    swspi_out ++
                  (DotStar_Show_bytes
                      { u with
                        pixel0 := (wheelArgs (255 - (u.colorRotation + 1) % 256)).2.2
                        pixel1 := (wheelArgs (255 - (u.colorRotation + 1) % 256)).2.1
                        pixel2 := (wheelArgs (255 - (u.colorRotation + 1) % 256)).1 }).flatMap
                    swspi_out))) ∧
      ((DotStar_SetBrightness u b).isInit = false ∧
        (Op.step u (Op.SetPower state)).1.isInit = false ∧
        (¬ now₁ > addULong u.nextRotation wait →
          DotStar_CycleColor u wait now₁ now₂ = (u, []))) ∧
      (DotStar_Show s = (s, (DotStar_Show_bytes s).flatMap swspi_out) ∧
        DotStar_SetPixelColor s r g b =
          ({ s with pixel0 := b, pixel1 := g, pixel2 := r },
            (DotStar_Show_bytes { s with pixel0 := b, pixel1 := g, pixel2 := r }).flatMap
              swspi_out) ∧
        DotStar_SetPixelColor_packed s c =
          ({ s with pixel0 := c % 256, pixel1 := (c >>> 8) % 256, pixel2 := (c >>> 16) % 256 },
            (DotStar_Show_bytes
              { s with
                pixel0 := c % 256
                pixel1 := (c >>> 8) % 256
                pixel2 := (c >>> 16) % 256 }).flatMap swspi_out) ∧
        DotStar_Clear s =
          ({ s with pixel0 := 0, pixel1 := 0, pixel2 := 0 },
            (DotStar_Show_bytes { s with pixel0 := 0, pixel1 := 0, pixel2 := 0 }).flatMap
              swspi_out) ∧
        (now₁ > addULong s.nextRotation wait →
          (DotStar_CycleColor s wait now₁ now₂).2 =
            (DotStar_Show_bytes
                  { s with
                    pixel0 := (wheelArgs (255 - (s.colorRotation + 1) % 256)).2.2
                    pixel1 := (wheelArgs (255 - (s.colorRotation + 1) % 256)).2.1
                    pixel2 := (wheelArgs (255 - (s.colorRotation + 1) % 256)).1 }).flatMap
                swspi_out ++
              (DotStar_Show_bytes
                  { s with
                    pixel0 := (wheelArgs (255 - (s.colorRotation + 1) % 256)).2.2
                    pixel1 := (wheelArgs (255 - (s.colorRotation + 1) % 256)).2.1
                    pixel2 := (wheelArgs (255 - (s.colorRotation + 1) % 256)).1 }).flatMap
                swspi_out)) ∧
      (Op.step s op).1.isInit = true ∧
      (Op.run s ops).1.isInit = true := by
  have hiu : (DotStar_Show_init u).2 =
      [ Event.digitalWrite DOTSTAR_PWR LOW, Event.pinMode DOTSTAR_DATA PinMode.OUTPUT,
        Event.pinMode DOTSTAR_CLK PinMode.OUTPUT, Event.digitalWrite DOTSTAR_DATA LOW,
        Event.digitalWrite DOTSTAR_CLK LOW, Event.delay 10 ] := by
    simp [DotStar_Show_init, hu]
    rfl
  have his : (DotStar_Show_init s).2 = [] := by simp [DotStar_Show_init, hs]
  refine ⟨?_, ⟨Show_uninit u hu, Show_uninit _ hu, Show_uninit _ hu, Show_uninit _ hu, ?_⟩,
    ⟨hu, hu, ?_⟩, ⟨Show_linked s hs, Show_linked _ hs, Show_linked _ hs, Show_linked _ hs, ?_⟩,
    step_isInit s op hs, run_isInit ops s hs⟩
  · intro now v0 t0
    refine ⟨rfl, by rw [Show_state], ?_⟩
    rw [Show_trace]
    rfl
  · intro he
    refine ⟨by rw [CycleColor_state u wait now₁ now₂ he], ?_⟩
    rw [CycleColor_trace u wait now₁ now₂ he, hiu]
  · intro he
    unfold DotStar_CycleColor
    rw [if_neg he]
  · intro he
    rw [CycleColor_trace s wait now₁ now₂ he, his, List.nil_append]

/-- C17, with the freshly constructed driver as the uninitialised state and the state
after its first `DotStar_SetPixelColor` as the initialised one: the first transmission,
made by `DotStar_SetPixelColor(1,2,3)`, starts with the initialisation writes. -/
theorem isInit_transitions_once_witness :
    DotStar_SetPixelColor (TinyPICO.new 0 0 false).1 1 2 3 =
      ({ (TinyPICO.new 0 0 false).1 with pixel0 := 3, pixel1 := 2, pixel2 := 1, isInit := true },
        [ Event.digitalWrite DOTSTAR_PWR LOW, Event.pinMode DOTSTAR_DATA PinMode.OUTPUT,
          Event.pinMode DOTSTAR_CLK PinMode.OUTPUT, Event.digitalWrite DOTSTAR_DATA LOW,
          Event.digitalWrite DOTSTAR_CLK LOW, Event.delay 10 ] ++
          (DotStar_Show_bytes
            { (TinyPICO.new 0 0 false).1 with pixel0 := 3, pixel1 := 2, pixel2 := 1 }).flatMap
            swspi_out) :=
  (isInit_transitions_once (TinyPICO.new 0 0 false).1
    (DotStar_SetPixelColor (TinyPICO.new 0 0 false).1 1 2 3).1 Op.Show
    [Op.Clear, Op.SetBrightness 3, Op.SetPixelColor 1 2 3, Op.CycleColor 0 1 1, Op.Show]
    1 2 3 0 0 1 1 false (by decide) (by decide)).2.1.2.1

/-! ## The two frames of `DotStar_CycleColor` -/

theorem toUInt8_lt (x : Int) : toUInt8 x < 256 := by
  unfold toUInt8
  omega

theorem wheelArgs_lt (pos : Nat) :
    (wheelArgs pos).1 < 256 ∧ (wheelArgs pos).2.1 < 256 ∧ (wheelArgs pos).2.2 < 256 := by
  unfold wheelArgs
  split_ifs <;> dsimp only <;> exact ⟨toUInt8_lt _, toUInt8_lt _, toUInt8_lt _⟩

theorem Show_bytes_frameSpec (s : TinyPICO) (hb : s.brightness < 256) (h0 : s.pixel0 < 256)
    (h1 : s.pixel1 < 256) (h2 : s.pixel2 < 256) :
    DotStar_Show_bytes s = frameSpec s.brightness s.pixel2 s.pixel1 s.pixel0 := by
  have w : TinyPICO.WF
      { s with
        nextVoltage := 0
        lastMeasuredVoltage := 0
        colorRotation := 0
        nextRotation := 0 } :=
    ⟨Nat.succ_pos _, Nat.succ_pos _, Nat.succ_pos _, Nat.succ_pos _, hb, h0, h1, h2⟩
  have key := Show_bytes_eq
    { s with
      nextVoltage := 0
      lastMeasuredVoltage := 0
      colorRotation := 0
      nextRotation := 0 } w
  exact key

/-- C18: every eligible `DotStar_CycleColor` call transmits exactly two frames, 18 bytes
through `swspi_out`: one when the pixel colour is set and one by the extra
`DotStar_Show`. After the lazy initialisation, if it is due, the platform calls are the
`swspi_out` calls for the same nine bytes twice, and these nine bytes encode the new
wheel colour at the current stored brightness. -/
theorem DotStar_CycleColor_two_frames (s : TinyPICO) (wait now₁ now₂ : Nat)
    (hb : s.brightness < 256) (he : now₁ > addULong s.nextRotation wait) :
    (DotStar_CycleColor s wait now₁ now₂).2 =
        (DotStar_Show_init s).2 ++
          (List.flatMap
              (frameSpec s.brightness (wheelArgs (255 - (s.colorRotation + 1) % 256)).1
                (wheelArgs (255 - (s.colorRotation + 1) % 256)).2.1
                (wheelArgs (255 - (s.colorRotation + 1) % 256)).2.2) swspi_out ++
            List.flatMap
              (frameSpec s.brightness (wheelArgs (255 - (s.colorRotation + 1) % 256)).1
                (wheelArgs (255 - (s.colorRotation + 1) % 256)).2.1
                (wheelArgs (255 - (s.colorRotation + 1) % 256)).2.2) swspi_out) ∧
      (frameSpec s.brightness (wheelArgs (255 - (s.colorRotation + 1) % 256)).1
          (wheelArgs (255 - (s.colorRotation + 1) % 256)).2.1
          (wheelArgs (255 - (s.colorRotation + 1) % 256)).2.2).length = 9 ∧
      DotStar_Show_bytes (DotStar_CycleColor s wait now₁ now₂).1 =
        frameSpec s.brightness (wheelArgs (255 - (s.colorRotation + 1) % 256)).1
          (wheelArgs (255 - (s.colorRotation + 1) % 256)).2.1
          (wheelArgs (255 - (s.colorRotation + 1) % 256)).2.2 := by
  have hp := wheelPos_nat ((s.colorRotation + 1) % 256) (Nat.mod_lt _ (by decide))
  obtain ⟨w1, w2, w3⟩ := wheelArgs_lt (255 - (s.colorRotation + 1) % 256)
  have hf : ∀ i : Bool, DotStar_Show_bytes
      { s with
        nextRotation := now₂
        colorRotation := (s.colorRotation + 1) % 256
        pixel0 := (wheelArgs (255 - (s.colorRotation + 1) % 256)).2.2
        pixel1 := (wheelArgs (255 - (s.colorRotation + 1) % 256)).2.1
        pixel2 := (wheelArgs (255 - (s.colorRotation + 1) % 256)).1
        isInit := i } =
      frameSpec s.brightness (wheelArgs (255 - (s.colorRotation + 1) % 256)).1
        (wheelArgs (255 - (s.colorRotation + 1) % 256)).2.1
        (wheelArgs (255 - (s.colorRotation + 1) % 256)).2.2 :=
    fun i => Show_bytes_frameSpec _ hb w3 w2 w1
  refine ⟨?_, rfl, ?_⟩
  · unfold DotStar_CycleColor
    rw [if_pos he]
    simp only [DotStar_SetPixelColor, hp]
    rw [Show_trace, Show_trace, Show_state]
    have e1 : (DotStar_Show_init
        { s with
          nextRotation := now₂
          colorRotation := (s.colorRotation + 1) % 256
          pixel0 := (wheelArgs (255 - (s.colorRotation + 1) % 256)).2.2
          pixel1 := (wheelArgs (255 - (s.colorRotation + 1) % 256)).2.1
          pixel2 := (wheelArgs (255 - (s.colorRotation + 1) % 256)).1 }).2 =
        (DotStar_Show_init s).2 := by
      unfold DotStar_Show_init
      cases s.isInit <;> rfl
    have e2 : (DotStar_Show_init
        { s with
          nextRotation := now₂
          colorRotation := (s.colorRotation + 1) % 256
          pixel0 := (wheelArgs (255 - (s.colorRotation + 1) % 256)).2.2
          pixel1 := (wheelArgs (255 - (s.colorRotation + 1) % 256)).2.1
          pixel2 := (wheelArgs (255 - (s.colorRotation + 1) % 256)).1
          isInit := true }).2 = [] := rfl
    rw [e1, e2, List.nil_append, hf true, hf s.isInit, List.append_assoc]
  · rw [CycleColor_state s wait now₁ now₂ he]
    exact hf true

/-- C18, on a fresh driver at clock reading 1: the two frames follow the lazy
initialisation. -/
theorem DotStar_CycleColor_two_frames_witness :
    (DotStar_CycleColor (TinyPICO.new 0 0 false).1 0 1 1).2 =
      (DotStar_Show_init (TinyPICO.new 0 0 false).1).2 ++
        (List.flatMap
            (frameSpec 128 (wheelArgs (255 - (0 + 1) % 256)).1
              (wheelArgs (255 - (0 + 1) % 256)).2.1
              (wheelArgs (255 - (0 + 1) % 256)).2.2) swspi_out ++
          List.flatMap
            (frameSpec 128 (wheelArgs (255 - (0 + 1) % 256)).1
              (wheelArgs (255 - (0 + 1) % 256)).2.1
              (wheelArgs (255 - (0 + 1) % 256)).2.2) swspi_out) :=
  (DotStar_CycleColor_two_frames (TinyPICO.new 0 0 false).1 0 1 1 (by decide) (by decide)).1

/-! ## Monotone brightness -/

theorem scaleSpec_stored_le (p b : Nat) :
    scaleSpec ((b + 1) % 256) p ≤ p ∧ (p * ((b + 1) % 256)) >>> 8 ≤ p := by
  have hm : p * ((b + 1) % 256) ≤ 256 * p := by
    rw [Nat.mul_comm]
    exact Nat.mul_le_mul_right p (Nat.le_of_lt (Nat.mod_lt _ (by decide)))
  have hd : (p * ((b + 1) % 256)) >>> 8 ≤ p := by
    rw [Nat.shiftRight_eq_div_pow]
    exact Nat.div_le_of_le_mul hm
  refine ⟨?_, hd⟩
  unfold scaleSpec
  split_ifs
  · exact hd
  · exact Nat.le_refl p

theorem scaleSpec_stored_mono (p b₁ b₂ : Nat) (h12 : b₁ ≤ b₂) (h2 : b₂ < 256) :
    scaleSpec ((b₁ + 1) % 256) p ≤ scaleSpec ((b₂ + 1) % 256) p := by
  rcases Nat.lt_or_ge b₂ 255 with hlt | hge
  · have e1 : (b₁ + 1) % 256 = b₁ + 1 := Nat.mod_eq_of_lt (by omega)
    have e2 : (b₂ + 1) % 256 = b₂ + 1 := Nat.mod_eq_of_lt (by omega)
    rw [e1, e2]
    unfold scaleSpec
    rw [if_pos (Nat.succ_ne_zero b₁), if_pos (Nat.succ_ne_zero b₂), Nat.shiftRight_eq_div_pow,
      Nat.shiftRight_eq_div_pow]
    exact Nat.div_le_div_right (Nat.mul_le_mul_left p (by omega))
  · have e2 : (b₂ + 1) % 256 = 0 := by omega
    have hp : scaleSpec 0 p = p := by simp [scaleSpec]
    rw [e2, hp]
    exact (scaleSpec_stored_le p b₁).1

/-- C19: brightness scaling is monotone in the requested level and never brightens.
For every driver state (so for every raw channel value in 0..255) and all requested
levels b₁ ≤ b₂ in 0..255, each colour byte that `DotStar_Show` transmits after
`DotStar_SetBrightness(b₁)` is at most the byte it transmits after
`DotStar_SetBrightness(b₂)`, and every transmitted colour byte is at most the raw
channel value; the product (p * stored) >> 8 is below 256, so nothing is truncated, and
the level 255 gives the raw value. -/
theorem brightness_monotone (s : TinyPICO) (b₁ b₂ : Nat) (h : s.WF) (h12 : b₁ ≤ b₂)
    (h2 : b₂ < 256) :
    (DotStar_Show_bytes (DotStar_SetBrightness s b₁) =
          frameSpec ((b₁ + 1) % 256) s.pixel2 s.pixel1 s.pixel0 ∧
        DotStar_Show_bytes (DotStar_SetBrightness s b₂) =
          frameSpec ((b₂ + 1) % 256) s.pixel2 s.pixel1 s.pixel0) ∧
      ((DotStar_Show_bytes (DotStar_SetBrightness s b₁)).getD 5 0 ≤
          (DotStar_Show_bytes (DotStar_SetBrightness s b₂)).getD 5 0 ∧
        (DotStar_Show_bytes (DotStar_SetBrightness s b₁)).getD 6 0 ≤
          (DotStar_Show_bytes (DotStar_SetBrightness s b₂)).getD 6 0 ∧
        (DotStar_Show_bytes (DotStar_SetBrightness s b₁)).getD 7 0 ≤
          (DotStar_Show_bytes (DotStar_SetBrightness s b₂)).getD 7 0) ∧
      ((DotStar_Show_bytes (DotStar_SetBrightness s b₂)).getD 5 0 ≤ s.pixel0 ∧
        (DotStar_Show_bytes (DotStar_SetBrightness s b₂)).getD 6 0 ≤ s.pixel1 ∧
        (DotStar_Show_bytes (DotStar_SetBrightness s b₂)).getD 7 0 ≤ s.pixel2) ∧
      ((s.pixel0 * ((b₂ + 1) % 256)) >>> 8 < 256 ∧
        (s.pixel1 * ((b₂ + 1) % 256)) >>> 8 < 256 ∧
        (s.pixel2 * ((b₂ + 1) % 256)) >>> 8 < 256) ∧
      DotStar_Show_bytes (DotStar_SetBrightness s 255) = frameSpec 0 s.pixel2 s.pixel1 s.pixel0 ∧
      (scaleSpec 0 s.pixel0 = s.pixel0 ∧ scaleSpec 0 s.pixel1 = s.pixel1 ∧
        scaleSpec 0 s.pixel2 = s.pixel2) := by
  obtain ⟨-, -, -, -, -, h0, h1, h2'⟩ := h
  have f : ∀ b, DotStar_Show_bytes (DotStar_SetBrightness s b) =
      frameSpec ((b + 1) % 256) s.pixel2 s.pixel1 s.pixel0 :=
    fun b => Show_bytes_frameSpec (DotStar_SetBrightness s b) (Nat.mod_lt _ (by decide)) h0 h1 h2'
  have hsc : ∀ p, scaleSpec 0 p = p := fun p => by simp [scaleSpec]
  refine ⟨⟨f b₁, f b₂⟩, ?_, ?_, ?_, f 255, hsc _, hsc _, hsc _⟩
  · rw [f b₁, f b₂]
    exact ⟨scaleSpec_stored_mono _ b₁ b₂ h12 h2, scaleSpec_stored_mono _ b₁ b₂ h12 h2,
      scaleSpec_stored_mono _ b₁ b₂ h12 h2⟩
  · rw [f b₂]
    exact ⟨(scaleSpec_stored_le _ b₂).1, (scaleSpec_stored_le _ b₂).1,
      (scaleSpec_stored_le _ b₂).1⟩
  · exact ⟨Nat.lt_of_le_of_lt (scaleSpec_stored_le _ b₂).2 h0,
      Nat.lt_of_le_of_lt (scaleSpec_stored_le _ b₂).2 h1,
      Nat.lt_of_le_of_lt (scaleSpec_stored_le _ b₂).2 h2'⟩

/-- C19, on a driver with blue 200, green 100, red 255 at the levels 10 and 254. -/
theorem brightness_monotone_witness :
    (DotStar_Show_bytes (DotStar_SetBrightness
        { nextVoltage := 0, lastMeasuredVoltage := 0, colorRotation := 0, nextRotation := 0,
          brightness := 128, pixel0 := 200, pixel1 := 100, pixel2 := 255, isInit := true,
          isToneInit := false } 10)).getD 5 0 ≤
      (DotStar_Show_bytes (DotStar_SetBrightness
        { nextVoltage := 0, lastMeasuredVoltage := 0, colorRotation := 0, nextRotation := 0,
          brightness := 128, pixel0 := 200, pixel1 := 100, pixel2 := 255, isInit := true,
          isToneInit := false } 254)).getD 5 0 :=
  (brightness_monotone
    { nextVoltage := 0, lastMeasuredVoltage := 0, colorRotation := 0, nextRotation := 0,
      brightness := 128, pixel0 := 200, pixel1 := 100, pixel2 := 255, isInit := true,
      isToneInit := false } 10 254 (by decide) (by decide) (by decide)).2.1.1

/-! ## The first battery reading -/

/-- C20 fails on the code when the first call is made in the millisecond of
construction. The constructor sets `nextVoltage` to the clock reading t₀ and assigns
nothing to `lastMeasuredVoltage`; a call of `GetBatteryVoltage` at the same reading
finds `nextVoltage - millis()` equal to 0, so it makes no platform call, leaves the
state as it is and returns whatever `lastMeasuredVoltage` held, here written v₀, for
every calibrated reading. At t₀ = 7 with v₀ = 12345 the call returns 12345; one
millisecond later the call samples and returns 3762 mV. -/
theorem GetBatteryVoltage_first_call_unsampled :
    GetBatteryVoltage (TinyPICO.new 7 12345 false).1 7 7 1000 =
        ((TinyPICO.new 7 12345 false).1, [], 12345) ∧
      (GetBatteryVoltage (TinyPICO.new 7 12345 false).1 8 8 1000).2.2 = 3762 ∧
      ∀ (t₀ v₀ cal : Nat) (tone : Bool),
        GetBatteryVoltage (TinyPICO.new t₀ v₀ tone).1 t₀ t₀ cal =
          ((TinyPICO.new t₀ v₀ tone).1, [], v₀) := by
  refine ⟨by decide, by decide, ?_⟩
  intro t₀ v₀ cal tone
  have hz : subULong t₀ t₀ = 0 := by
    unfold subULong
    omega
  simp only [GetBatteryVoltage, TinyPICO.new, hz, gt_iff_lt, Nat.lt_irrefl, if_false]
